import Mathlib

/-!
Verification development for the gwern.net client-side content resolution and
caching subsystem (content.js, misc.js and the notification center).

The JavaScript source is shallowly embedded: URL objects become a `Url`
structure, anchor elements become `LinkElement`, the DOM becomes a small tree
type, the content cache becomes an association list, network requests become a
fetch oracle passed explicitly, and every observable side effect (ajax request,
notification broadcast, server-side error log) is recorded in an event trace.
JavaScript exceptions escaping a callback are recorded in an `uncaughtError`
field.  Regular expressions used by the source are implemented as executable
character-list matchers.
-/

/-! ## URLs and link elements -/

/-- A URL object, as mutated by the source (`new URL(link.href)` followed by
assignments to `hash` / `search` / `pathname` / `hostname`).  `search` is
either empty or starts with `?`; `hash` is either empty or starts with `#`. -/
structure Url where
  protocol : String
  hostname : String
  pathname : String
  search : String
  hash : String
deriving DecidableEq

/-- `url.origin`. -/
def Url.origin (u : Url) : String := u.protocol ++ "//" ++ u.hostname

/-- `url.href`: serialization of the URL. -/
def Url.href (u : Url) : String := u.origin ++ u.pathname ++ u.search ++ u.hash

/-- An anchor element as consumed by content.js.  The two `Annotations.` /
`Transclude.` classifier calls live in files outside src/ and are modelled as
boolean attributes of the link (they depend only on the link itself). -/
structure LinkElement where
  url : Url
  classList : List String
  /-- `link.dataset.urlOriginal`, already parsed as a URL; `none` when the
  attribute is absent or empty. -/
  dataUrlOriginal : Option Url
  /-- `link.dataset.targetId` (empty string when absent, matching the
  JavaScript `> ""` tests). -/
  dataTargetId : String
  /-- `link.dataset.backlinkTargetUrl` (empty string when absent). -/
  dataBacklinkTargetUrl : String
  /-- `Annotations.isAnnotatedLinkFull(link)` (annotations.js, not in src/). -/
  annotatedFull : Bool
  /-- `isAnnotationLink(link)` =
  `Annotations.isAnnotatedLink(link) || Transclude.isAnnotationTransclude(link)`
  (the two callees are not in src/). -/
  annotationLink : Bool
deriving DecidableEq

/-! ## String helpers (executable forms of the regexps in the source) -/

/-- JavaScript `String.replace` with a plain-string pattern replaces only the
first occurrence; `List`-level implementation. -/
def listReplaceFirst (pat repl : List Char) : List Char → List Char
  | [] => []
  | c :: rest =>
    if pat.isPrefixOf (c :: rest) then repl ++ (c :: rest).drop pat.length
    else c :: listReplaceFirst pat repl rest

/-- `s.replace(pat, repl)` (first occurrence only, as in JavaScript for string
patterns). -/
def stringReplaceFirst (s pat repl : String) : String :=
  ⟨listReplaceFirst pat.data repl.data s.data⟩

/-- Lower-casing for the `/i` regexp flags. -/
def toLowerStr (s : String) : String := ⟨s.data.map Char.toLower⟩

/-- `s.startsWith(p)` (character-list implementation). -/
def strStartsWith (s p : String) : Bool := p.data.isPrefixOf s.data

/-- `s.endsWith(p)` (character-list implementation). -/
def strEndsWith (s p : String) : Bool := p.data.reverse.isPrefixOf s.data.reverse

/-- `s.slice(n)` / `s.substring(n)` (character-list implementation). -/
def strDrop (s : String) (n : Nat) : String := ⟨s.data.drop n⟩

/-- Case-insensitive "ends with": used for `\.(...)$/i` tests. -/
def endsWithCI (s suffix : String) : Bool :=
  (toLowerStr suffix).data.reverse.isPrefixOf (toLowerStr s).data.reverse

/-- `originalURL.pathname.match(/\/.+?\/status\/[0-9]+$/) != null`: the
pathname decomposes as `p ++ "/" ++ m ++ "/status/" ++ d` with `m` nonempty and
`d` a nonempty digit string. -/
def tweetStatusPathMatch (s : String) : Bool :=
  let rev := s.data.reverse
  let digits := rev.takeWhile Char.isDigit
  let rest := rev.drop digits.length
  decide (0 < digits.length)
    && "/status/".data.reverse.isPrefixOf rest
    && ((rest.drop 8).drop 1).contains '/'

/-- `Content.contentTypes.localCodeFile.codeFileExtensions`. -/
def codeFileExtensions : List String :=
  ["bash", "c", "conf", "css", "csv", "diff", "hs", "html", "js",
   "json", "jsonl", "opml", "page", "patch", "php", "py", "R",
   "sh", "xml", "yaml",
   "txt"]

/-- The dynamically built `codeFileURLRegExp` test:
`/\.(bash|c|...|txt)$/i.test(pathname)`. -/
def codeFileURLRegExpTest (pathname : String) : Bool :=
  codeFileExtensions.any (fun ext => endsWithCI pathname ("." ++ ext))

/-- `link.pathname.match(/\.(html|pdf)$/i) != null`. -/
def htmlOrPdfPathMatch (pathname : String) : Bool :=
  endsWithCI pathname ".html" || endsWithCI pathname ".pdf"

/-! ## originalURLForLink (misc.js) -/

/-- `originalURLForLink(link)`: the link's own URL unless a
`data-url-original` attribute is present, with the ar5iv special case. -/
def originalURLForLink (link : LinkElement) : Url :=
  match link.dataUrlOriginal with
  | none => link.url
  | some o =>
    if o.hostname = "ar5iv.labs.arxiv.org" then
      { o with hostname := "arxiv.org",
               pathname := stringReplaceFirst o.pathname "/html/" "/abs/",
               search := "" }
    else o

/-! ## Content type registry: matches predicates (content.js) -/

/-- `Content.contentTypes.localTweetArchive.matches(link)`.  `loc` is the
browser `location`. -/
def matchesLocalTweetArchive (loc : Url) (link : LinkElement) : Bool :=
  let originalURL := originalURLForLink link
  link.url.hostname = loc.hostname
    && strStartsWith link.url.pathname "/doc/www/"
    && originalURL.hostname = "twitter.com"
    && tweetStatusPathMatch originalURL.pathname

/-- `Content.contentTypes.localCodeFile.matches(link)`. -/
def matchesLocalCodeFile (loc : Url) (link : LinkElement) : Bool :=
  if link.url.hostname ≠ loc.hostname then false
  else if link.annotatedFull then false
  else if strStartsWith link.url.pathname "/metadata/" then false
  else if strStartsWith link.url.pathname "/doc/www/"
          || (strStartsWith link.url.pathname "/doc/"
              && htmlOrPdfPathMatch link.url.pathname) then false
  else codeFileURLRegExpTest link.url.pathname

/-- `Content.contentTypes.localFragment.matches(link)`. -/
def matchesLocalFragment (loc : Url) (link : LinkElement) : Bool :=
  if link.url.hostname ≠ loc.hostname then false
  else if link.annotatedFull then false
  else strStartsWith link.url.pathname "/metadata/"
        && strEndsWith link.url.pathname ".html"

/-- `Content.contentTypes.localPage.matches(link)`. -/
def matchesLocalPage (loc : Url) (link : LinkElement) : Bool :=
  if link.url.hostname ≠ loc.hostname then false
  else if link.annotatedFull then false
  else !(link.url.pathname.data.contains '.')
        || strEndsWith link.url.pathname "/index"
        || link.classList.contains "link-page"

/-- The names of the four registered content types, in the registration
order of the `Content.contentTypes` object literal. -/
inductive ContentTypeName where
  | localTweetArchive
  | localCodeFile
  | localFragment
  | localPage
deriving DecidableEq

/-- Dispatch of `.matches` through the name. -/
def ContentTypeName.matches (loc : Url) (link : LinkElement) :
    ContentTypeName → Bool
  | .localTweetArchive => matchesLocalTweetArchive loc link
  | .localCodeFile => matchesLocalCodeFile loc link
  | .localFragment => matchesLocalFragment loc link
  | .localPage => matchesLocalPage loc link

/-- `Object.entries(Content.contentTypes)` enumerates keys in insertion
order. -/
def contentTypesOrder : List ContentTypeName :=
  [.localTweetArchive, .localCodeFile, .localFragment, .localPage]

/-- `Content.contentTypeForLink(link)`: first registered descriptor whose
`matches` predicate holds, else null. -/
def Content.contentTypeForLink (loc : Url) (link : LinkElement) :
    Option ContentTypeName :=
  contentTypesOrder.find? (fun ct => ct.matches loc link)

/-! ## Source URL resolution and the cache key -/

/-- `.sourceURLsForLink(link)` of each registered content type.  All four
clear `hash` and `search` of a copy of the link's URL; `localCodeFile`
additionally prepends the syntax-highlighted `.html` variant. -/
def sourceURLsForLinkOfType (ct : ContentTypeName) (link : LinkElement) :
    List Url :=
  match ct with
  | .localTweetArchive => [{ link.url with hash := "", search := "" }]
  | .localCodeFile =>
    let codeFileURL : Url := { link.url with hash := "", search := "" }
    let syntaxHighlightedCodeFileURL : Url :=
      { codeFileURL with pathname := codeFileURL.pathname ++ ".html" }
    [syntaxHighlightedCodeFileURL, codeFileURL]
  | .localFragment => [{ link.url with hash := "", search := "" }]
  | .localPage => [{ link.url with hash := "", search := "" }]

/-- `.permittedContentTypes` of each registered content type. -/
def permittedContentTypesOfType : ContentTypeName → Option (List String)
  | .localFragment => some ["text/html"]
  | .localPage => some ["text/html"]
  | _ => none

/-- `Content.sourceURLsForLink(link)`: dispatches through
`contentTypeForLink`; `none` models the TypeError thrown when no content type
matches. -/
def Content.sourceURLsForLink (loc : Url) (link : LinkElement) :
    Option (List Url) :=
  (Content.contentTypeForLink loc link).map
    (fun ct => sourceURLsForLinkOfType ct link)

/-- `Content.contentCacheKeyForLink(link)` =
`Content.sourceURLsForLink(link).first.href`; `none` models the TypeError on a
matchless link or an empty source list. -/
def Content.contentCacheKeyForLink (loc : Url) (link : LinkElement) :
    Option String :=
  match Content.sourceURLsForLink loc link with
  | none => none
  | some urls => urls.head?.map Url.href

/-! ## The loader state machine (content.js `Content.load` and friends)

The loader is embedded generically in the matched content type's strategy
object (a `ContentTypeVtable`), exactly the four operations the source
dispatches through `Content.contentTypeForLink(link)`.  Network transport
(`doAjax`, misc.js — not in src/) is modelled from the spec as an oracle
`fetch : String → FetchResult` consulted once per issued request, with the
request itself recorded in the event trace.  `GWServerLogError` (not in src/)
is modelled from the spec ("fire-and-forget" log request) as a trace event. -/

/-- Observable effects, in order of occurrence. -/
inductive Ev where
  /-- a `doAjax` GET for the given `href` was issued -/
  | fetchRequest (url : String)
  /-- `GW.notificationCenter.fireEvent("Content.contentDidLoad", {link})` -/
  | contentDidLoad (linkHref : String)
  /-- `GW.notificationCenter.fireEvent("Content.contentLoadDidFail", {link})` -/
  | contentLoadDidFail (linkHref : String)
  /-- `GWServerLogError(url, kind)` -/
  | serverLogError (url : String) (kind : String)
  /-- `GW.notificationCenter.fireEvent("GW.contentDidLoad", ...)` fired from
  inside a `contentFromResponse` implementation -/
  | gwContentDidLoad (source : String)
deriving DecidableEq

/-- Is the event a `Content.contentLoadDidFail` broadcast? -/
def Ev.isFail : Ev → Bool
  | .contentLoadDidFail _ => true
  | _ => false

/-- Is the event a `Content.contentDidLoad` broadcast? -/
def Ev.isDidLoad : Ev → Bool
  | .contentDidLoad _ => true
  | _ => false

/-- Is the event an issued network request? -/
def Ev.isFetch : Ev → Bool
  | .fetchRequest _ => true
  | _ => false

/-- A value of `Content.cachedContent[key]`: either a parsed content object or
the string sentinel `"LOADING_FAILED"`. -/
inductive CacheEntry (γ : Type) where
  | loaded (content : γ)
  | loadingFailed
deriving DecidableEq

/-- The mutable state touched by the loader: the `Content.cachedContent` map
(an association list keyed by href), the trace of observable effects, and a
record of any JavaScript exception that escaped a callback. -/
structure LoadState (γ : Type) where
  cache : List (String × CacheEntry γ)
  trace : List Ev
  uncaughtError : Option String
deriving DecidableEq

/-- `Content.cachedContent[key] = value` (overwrite or append). -/
def cacheStore {γ : Type} (c : List (String × CacheEntry γ)) (k : String)
    (v : CacheEntry γ) : List (String × CacheEntry γ) :=
  match c with
  | [] => [(k, v)]
  | (k', v') :: rest =>
    if k' = k then (k, v) :: rest else (k', v') :: cacheStore rest k v

/-- `Content.cachedContent[key]` lookup. -/
def cacheLookup {γ : Type} (c : List (String × CacheEntry γ)) (k : String) :
    Option (CacheEntry γ) :=
  match c with
  | [] => none
  | (k', v) :: rest => if k' = k then some v else cacheLookup rest k

/-- Result of one network GET, as seen by the `doAjax` callbacks:
`success` carries the `Content-Type` response header (if any) and the response
text; `failure` is a transport failure (network error or non-2xx status). -/
inductive FetchResult where
  | success (contentTypeHeader : Option String) (responseText : String)
  | failure
deriving DecidableEq

/-- `httpContentTypeHeader.match(/(.+?)(?:;|$)/)[1]`: the shortest nonempty
prefix that is followed by `;` or the end of the string; `none` models the
failed match (empty header) whose `[1]` indexing throws. -/
def headerMainPart (s : String) : Option String :=
  match s.data with
  | [] => none
  | c :: rest => some ⟨c :: rest.takeWhile (fun ch => ch ≠ ';')⟩

/-- The strategy object of a matched content type, as used by `Content.load`:
`sourceURLsForLink`, `contentFromResponse` and the optional
`permittedContentTypes` allow-list.  `contentFromResponse` receives the
response text (`none` when called as `processResponse()` with no argument for
the current page), and returns either `Except.error` (a thrown JavaScript
exception), or the produced content object (`none` for a falsy result)
together with the effects (`doAjax`, `GW.contentDidLoad`) it fired while
parsing. -/
structure ContentTypeVtable (γ : Type) where
  sourceURLsForLink : LinkElement → List Url
  contentFromResponse :
    Option String → LinkElement → Url → Except String (Option γ × List Ev)
  permittedContentTypes : Option (List String)

/-- The cache key recomputed by `Content.cacheContentForLink` via
`Content.contentCacheKeyForLink(link)` — the first source URL's href. -/
def vtableCacheKey {γ : Type} (ct : ContentTypeVtable γ) (link : LinkElement) :
    Option String :=
  (ct.sourceURLsForLink link).head?.map Url.href

/-- `processResponse` inside `Content.load`: parse; on a truthy result cache
it and fire `Content.contentDidLoad`; on a falsy result cache the
`"LOADING_FAILED"` sentinel, fire `Content.contentLoadDidFail`, and log a
`--could-not-process` failure. -/
def processResponse {γ : Type} (ct : ContentTypeVtable γ) (link : LinkElement)
    (sourceURL : Url) (response : Option String) (s : LoadState γ) :
    LoadState γ :=
  match ct.contentFromResponse response link sourceURL with
  | .error e => { s with uncaughtError := some e }
  | .ok (content?, evs) =>
    match vtableCacheKey ct link with
    | none =>
      { s with trace := s.trace ++ evs,
               uncaughtError := some "TypeError: undefined has no .href" }
    | some key =>
      match content? with
      | some content =>
        { s with
            cache := cacheStore s.cache key (.loaded content),
            trace := s.trace ++ evs ++ [.contentDidLoad link.url.href] }
      | none =>
        { s with
            cache := cacheStore s.cache key .loadingFailed,
            trace := s.trace ++ evs
              ++ [.contentLoadDidFail link.url.href,
                  .serverLogError (sourceURL.href ++ "--could-not-process")
                    "problematic content"] }

/-- The body of `Content.load` minus the final `waitForDataLoad` call,
recursing on `sourceURLsRemaining` exactly as the `onFailure` callback does.
Notable faithful details: there is **no** cache check before issuing a
request; on a permitted-content-type mismatch the `onSuccess` callback
evaluates `includeLink.href` where no `includeLink` is in scope, so a
ReferenceError is thrown and neither the log request, nor a cache write, nor
any broadcast happens. -/
def Content.loadAux {γ : Type} (fetch : String → FetchResult)
    (ct : ContentTypeVtable γ) (loc : Url) (link : LinkElement) :
    List Url → LoadState γ → LoadState γ
  | [], s =>
    -- `sourceURLsRemaining.shift()` on an empty list yields `undefined`,
    -- whose `.pathname` access throws.
    { s with uncaughtError := some "TypeError: undefined has no .pathname" }
  | sourceURL :: sourceURLsRemaining, s =>
    if sourceURL.pathname = loc.pathname then
      -- current-page special case: `processResponse()` with no response
      processResponse ct link sourceURL none s
    else
      let s1 : LoadState γ :=
        { s with trace := s.trace ++ [.fetchRequest sourceURL.href] }
      match fetch sourceURL.href with
      | .success hdr body =>
        match ct.permittedContentTypes with
        | none => processResponse ct link sourceURL (some body) s1
        | some permitted =>
          match hdr with
          | none =>
            -- header null → mismatch branch → `includeLink` ReferenceError
            { s1 with
                uncaughtError := some "ReferenceError: includeLink is not defined" }
          | some h =>
            match headerMainPart h with
            | none =>
              -- `.match(...)` returned null; `[1]` throws
              { s1 with
                  uncaughtError := some "TypeError: cannot index null match" }
            | some mainType =>
              if permitted.contains mainType then
                processResponse ct link sourceURL (some body) s1
              else
                { s1 with
                    uncaughtError := some "ReferenceError: includeLink is not defined" }
      | .failure =>
        if 0 < sourceURLsRemaining.length then
          Content.loadAux fetch ct loc link sourceURLsRemaining s1
        else
          match vtableCacheKey ct link with
          | none =>
            { s1 with uncaughtError := some "TypeError: undefined has no .href" }
          | some key =>
            { s1 with
                cache := cacheStore s1.cache key .loadingFailed,
                trace := s1.trace
                  ++ [.contentLoadDidFail link.url.href,
                      .serverLogError sourceURL.href "missing content"] }

/-- `Content.load(link)` with no handlers supplied (`sourceURLsRemaining`
defaulted from `Content.sourceURLsForLink(link)`). -/
def Content.loadCore {γ : Type} (fetch : String → FetchResult)
    (ct : ContentTypeVtable γ) (loc : Url) (link : LinkElement)
    (s : LoadState γ) : LoadState γ :=
  Content.loadAux fetch ct loc link (ct.sourceURLsForLink link) s

/-- `Content.cachedContentForLink(link)`: triggers a synchronous
`Content.load` when the link points at the current page, then reads the cache.
Returns the possibly updated state together with the cache value. -/
def Content.cachedContentForLink {γ : Type} (fetch : String → FetchResult)
    (ct : ContentTypeVtable γ) (loc : Url) (link : LinkElement)
    (s : LoadState γ) : LoadState γ × Option (CacheEntry γ) :=
  let s' := if link.url.pathname = loc.pathname
            then Content.loadCore fetch ct loc link s else s
  match vtableCacheKey ct link with
  | none => ({ s' with uncaughtError := some "TypeError: undefined has no .href" },
             none)
  | some key => (s', cacheLookup s'.cache key)

/-- `Content.cachedDataExists(link)`:
`cachedContent != null && cachedContent != "LOADING_FAILED"`. -/
def Content.cachedDataExists {γ : Type} (fetch : String → FetchResult)
    (ct : ContentTypeVtable γ) (loc : Url) (link : LinkElement)
    (s : LoadState γ) : LoadState γ × Bool :=
  let (s', cachedContent) := Content.cachedContentForLink fetch ct loc link s
  (s', match cachedContent with
       | some (.loaded _) => true
       | some .loadingFailed => false
       | none => false)

/-- Which of the two handlers passed to `Content.load` /
`Content.waitForDataLoad` got invoked. -/
inductive HandlerCall where
  | loadHandler
  | loadFailHandler
deriving DecidableEq

/-- Result of `Content.waitForDataLoad` (and of `Content.load` with
handlers): the state after any cache reads (which can trigger the self-page
load), the handler invocations that happened synchronously, and whether the
one-shot `contentDidLoad` / `contentLoadDidFail` notification handlers were
subscribed instead. -/
structure WaitResult (γ : Type) where
  state : LoadState γ
  calls : List HandlerCall
  subscribed : Bool
deriving DecidableEq

/-- `Content.waitForDataLoad(link, loadHandler, loadFailHandler)`.  Note the
source calls `Content.cachedContentForLink` twice (once per branch test), and
the second test is plain truthiness — the `"LOADING_FAILED"` string is truthy.
-/
def Content.waitForDataLoad {γ : Type} (fetch : String → FetchResult)
    (ct : ContentTypeVtable γ) (loc : Url) (link : LinkElement)
    (s : LoadState γ) : WaitResult γ :=
  let (s1, c1) := Content.cachedContentForLink fetch ct loc link s
  match c1 with
  | some .loadingFailed => ⟨s1, [.loadFailHandler], false⟩
  | _ =>
    let (s2, c2) := Content.cachedContentForLink fetch ct loc link s1
    match c2 with
    | some _ => ⟨s2, [.loadHandler], false⟩
    | none => ⟨s2, [], true⟩

/-- `Content.load(link, loadHandler, loadFailHandler)`: the load body, then —
if any handler was provided — `Content.waitForDataLoad`. -/
def Content.load {γ : Type} (fetch : String → FetchResult)
    (ct : ContentTypeVtable γ) (loc : Url) (link : LinkElement)
    (withHandlers : Bool) (s : LoadState γ) : WaitResult γ :=
  let s1 := Content.loadCore fetch ct loc link s
  if withHandlers then Content.waitForDataLoad fetch ct loc link s1
  else ⟨s1, [], false⟩

/-- The condition under which the `onSuccess` callback reaches
`processResponse`: either the matched content type has no
`permittedContentTypes` allow-list, or the response's `Content-Type` header
is present and its main part is in the allow-list. -/
def contentTypeCheckPasses {γ : Type} (ct : ContentTypeVtable γ)
    (hdr : Option String) : Bool :=
  match ct.permittedContentTypes with
  | none => true
  | some permitted =>
    match hdr with
    | none => false
    | some h =>
      match headerMainPart h with
      | none => false
      | some mainType => permitted.contains mainType

/-! ## A small DOM model (for misc.js `targetElementInDocument` and the
localPage content type) -/

mutual
/-- A DOM element: tag name, `id` attribute (empty when absent), class list,
text content, parsed `href` attribute (for `<a>` elements), the
`data-url-original` attribute, and child elements. -/
inductive DomNode where
  | mk (tag : String) (idAttr : String) (classes : List String)
       (textContent : String) (hrefAttr : Option Url)
       (dataUrlOriginal : Option String) (children : DomForest)
/-- A sequence of sibling DOM elements (also used for document fragments,
which have several roots). -/
inductive DomForest where
  | nil
  | cons (n : DomNode) (rest : DomForest)
end

/-- Tag name accessor. -/
def DomNode.tag : DomNode → String
  | .mk t _ _ _ _ _ _ => t

/-- `id` attribute accessor. -/
def DomNode.idAttr : DomNode → String
  | .mk _ i _ _ _ _ _ => i

/-- Class list accessor. -/
def DomNode.classes : DomNode → List String
  | .mk _ _ c _ _ _ _ => c

/-- Text content accessor. -/
def DomNode.textContent : DomNode → String
  | .mk _ _ _ t _ _ _ => t

/-- `href` attribute accessor. -/
def DomNode.hrefAttr : DomNode → Option Url
  | .mk _ _ _ _ h _ _ => h

/-- `data-url-original` attribute accessor. -/
def DomNode.dataUrlOriginal : DomNode → Option String
  | .mk _ _ _ _ _ d _ => d

/-- Children accessor. -/
def DomNode.children : DomNode → DomForest
  | .mk _ _ _ _ _ _ ch => ch

/-- First element of a forest (`firstElementChild` / `Array.prototype.first`). -/
def DomForest.head? : DomForest → Option DomNode
  | .nil => none
  | .cons n _ => some n

/-- Emptiness test (the `:empty` pseudo-class on children). -/
def DomForest.isEmpty : DomForest → Bool
  | .nil => true
  | .cons _ _ => false

/-- Forest concatenation (building the `pageContent` fragment). -/
def DomForest.append : DomForest → DomForest → DomForest
  | .nil, g => g
  | .cons n rest, g => .cons n (rest.append g)

mutual
/-- `document.querySelector("#targetId")` restricted to id selectors:
pre-order search returning the found element together with its ancestor chain
(nearest first). -/
def findInNode (targetId : String) (n : DomNode) (anc : List DomNode) :
    Option (DomNode × List DomNode) :=
  match n with
  | .mk t i c txt h d children =>
    if i = targetId then some (.mk t i c txt h d children, anc)
    else findInForest targetId children (.mk t i c txt h d children :: anc)

/-- Pre-order id search over sibling elements. -/
def findInForest (targetId : String) (f : DomForest) (anc : List DomNode) :
    Option (DomNode × List DomNode) :=
  match f with
  | .nil => none
  | .cons n rest =>
    match findInNode targetId n anc with
    | some r => some r
    | none => findInForest targetId rest anc
end

/-- `element.closest(sel)` for a simple predicate, given the element and its
ancestor chain. -/
def closestMatching (p : DomNode → Bool) (n : DomNode) (anc : List DomNode) :
    Option DomNode :=
  (n :: anc).find? p

mutual
/-- `querySelector("span[id]:empty")`: first descendant-or-self span with an
id and no content. -/
def findEmptyIdSpanNode (n : DomNode) : Option DomNode :=
  match n with
  | .mk t i c txt h d children =>
    if t == "span" && i != "" && txt == "" && children.isEmpty then
      some (.mk t i c txt h d children)
    else findEmptyIdSpanForest children

/-- `querySelector("span[id]:empty")` over sibling elements. -/
def findEmptyIdSpanForest (f : DomForest) : Option DomNode :=
  match f with
  | .nil => none
  | .cons n rest =>
    match findEmptyIdSpanNode n with
    | some r => some r
    | none => findEmptyIdSpanForest rest
end

mutual
/-- `querySelectorAll("a...")`: collect all `<a>` descendants in document
order, each with its ancestor chain. -/
def collectAnchorsNode (n : DomNode) (anc : List DomNode) :
    List (DomNode × List DomNode) :=
  match n with
  | .mk t i c txt h d children =>
    (if t == "a" then [((DomNode.mk t i c txt h d children), anc)] else [])
      ++ collectAnchorsForest children (.mk t i c txt h d children :: anc)

/-- `querySelectorAll("a...")` over sibling elements. -/
def collectAnchorsForest (f : DomForest) (anc : List DomNode) :
    List (DomNode × List DomNode) :=
  match f with
  | .nil => []
  | .cons n rest => collectAnchorsNode n anc ++ collectAnchorsForest rest anc
end

/-! ## Anchors and targetElementInDocument (misc.js) -/

/-- `s.split(sep)` at a single separator character (JavaScript semantics:
`"".split(" ") = [""]`). -/
def splitOnCharAux (sep : Char) : List Char → List (List Char)
  | [] => [[]]
  | c :: rest =>
    let r := splitOnCharAux sep rest
    if c = sep then [] :: r
    else
      match r with
      | [] => [[c]]
      | g :: gs => (c :: g) :: gs

/-- String-level `split` on one character. -/
def splitOnChar (sep : Char) (s : String) : List String :=
  (splitOnCharAux sep s.data).map (fun l => ⟨l⟩)

/-- `hash.match(/#[^#]*/g)`: the maximal `#`-led runs of non-`#` characters
(each `#` in the string starts a run consisting of it and the following
non-`#` characters). -/
def hashAnchorsAux : List Char → List (List Char)
  | [] => []
  | c :: rest =>
    if c = '#' then
      ('#' :: rest.takeWhile (fun ch => ch ≠ '#')) :: hashAnchorsAux rest
    else hashAnchorsAux rest

/-- String-level `hash.match(/#[^#]*/g)`. -/
def hashAnchors (s : String) : List String :=
  (hashAnchorsAux s.data).map (fun l => ⟨l⟩)

/-- `anchorsForLink(link)` (misc.js), for HTML anchor elements: target-id
list, else the hash runs, else the backlink target, else nothing. -/
def anchorsForLink (link : LinkElement) : List String :=
  if link.dataTargetId ≠ "" then
    (splitOnChar ' ' link.dataTargetId).map (fun x => "#" ++ x)
  else if link.annotationLink = false ∧ link.url.hash ≠ "" then
    hashAnchors link.url.hash
  else if link.annotationLink = false ∧ link.dataBacklinkTargetUrl ≠ "" then
    [link.dataBacklinkTargetUrl]
  else []

/-- `isAnchorLink(link)` (misc.js): exactly one anchor. -/
def isAnchorLink (link : LinkElement) : Bool :=
  (anchorsForLink link).length == 1

/-- Substring occurrence test on character lists. -/
def listIsInfixOf (sub : List Char) : List Char → Bool
  | [] => sub.isEmpty
  | c :: rest => sub.isPrefixOf (c :: rest) || listIsInfixOf sub rest

/-- `s.includes(sub)` (substring test, for the `[href*='...']` selector). -/
def strContains (s sub : String) : Bool := listIsInfixOf sub.data s.data

/-- The backlink-hack `backlinkSelector`: an `<a>` whose serialized href
contains the target (modulo `CSS.escape`, modelled as identity) or whose
`data-url-original` equals it, excluding `.backlink-not`. -/
def matchesBacklinkSelector (target : String) (n : DomNode) : Bool :=
  ((match n.hrefAttr with
    | some u => strContains u.href target
    | none => false)
      && !(n.classes.contains "backlink-not"))
    || (n.dataUrlOriginal == some target
        && !(n.classes.contains "backlink-not"))

/-- The backlink-hack `.filter(...)` body's URL condition. -/
def backlinkFilter (target : String) (n : DomNode) : Bool :=
  if strStartsWith target "/" then
    match n.hrefAttr with
    | some u => u.pathname == target
    | none => false
  else
    (match n.hrefAttr with
     | some u => u.href == target
     | none => false)
      || n.dataUrlOriginal == some target

/-- `#page-metadata a, .aux-links-list a` ancestry test used by the
backlink-hack's `closest` exclusion. -/
def hasExclusionAncestor : List DomNode → Bool
  | [] => false
  | m :: rest =>
    (m.idAttr == "page-metadata" || m.classes.contains "aux-links-list")
      || hasExclusionAncestor rest

/-- `backlink.closest("#page-metadata a, .aux-links-list a") != null` over a
self-plus-ancestors chain. -/
def closestExcluded : List DomNode → Bool
  | [] => false
  | m :: rest => (m.tag == "a" && hasExclusionAncestor rest)
      || closestExcluded rest

/-- `targetElementInDocument(link, doc)` (misc.js).  `selectorFromHash` is in
a part of misc.js not included in src/; modelled from the spec as the lookup
of the element whose id is the anchor minus its `#`. -/
def targetElementInDocument (link : LinkElement) (docRoots : DomForest) :
    Option (DomNode × List DomNode) :=
  if isAnchorLink link = false then none
  else
    match (anchorsForLink link).head? with
    | none => none
    | some anchor =>
      let element :=
        if strStartsWith anchor "#" then
          findInForest (strDrop anchor 1) docRoots []
        else none
      match element with
      | some r => some r
      | none =>
        if link.dataBacklinkTargetUrl ≠ "" then
          ((collectAnchorsForest docRoots []).filter (fun p =>
              matchesBacklinkSelector link.dataBacklinkTargetUrl p.1
                && backlinkFilter link.dataBacklinkTargetUrl p.1
                && !(closestExcluded (p.1 :: p.2)))).head?
        else none

/-! ## The localPage content type (parse and reference data) -/

/-- The parse-relevant view of an HTML page document — either the browser's
live `document` or the result of `newDocument(response)` (`newDocument` is in
a part of misc.js not included in src/): the meta tags and title read by
`localPage.contentFromResponse`, and the element tree walked by
`localPage.referenceDataFromContent`. -/
structure PageDoc where
  pageBodyClassesAttr : Option String
  titleInnerHTML : String
  ogImage : Option Url
  ogImageAlt : Option String
  ogImageWidth : Option String
  ogImageHeight : Option String
  root : DomNode

/-- The content object cached by the localPage content type. -/
structure PageContent where
  title : String
  bodyClasses : List String
  thumbnailHTML : Option String
  doc : PageDoc
  /-- `page.baseLocation`: set only when the page was parsed from a fetched
  response; the live document carries none (this is what distinguishes the
  live page from a fetched copy of it). -/
  baseLocation : Option Url

/-- Suffix test for the page title regexp. -/
def pageTitleSuffixCheck (rest : List Char) : Bool :=
  rest == " · Gwern.net".data || rest == " · Gwern.net (reader mode)".data

/-- Lazy-group scan for the page title regexp. -/
def pageTitleMatchAux (acc : List Char) : List Char → Option (List Char)
  | [] => none
  | c :: rest =>
    if pageTitleSuffixCheck rest then some (acc ++ [c])
    else pageTitleMatchAux (acc ++ [c]) rest

/-- `title.innerHTML.match(/^(.+?) · Gwern\.net( \(reader mode\))?$/)[1]`:
group 1 is the shortest nonempty prefix followed exactly by the
` · Gwern.net` suffix, optionally with ` (reader mode)`; `none` models the
failed match whose `[1]` indexing throws. -/
def pageTitleMatch (s : String) : Option String :=
  (pageTitleMatchAux [] s.data).map (fun l => ⟨l⟩)

/-- `s.trim()` (character-list implementation). -/
def strTrim (s : String) : String :=
  ⟨((s.data.dropWhile Char.isWhitespace).reverse.dropWhile
      Char.isWhitespace).reverse⟩

/-- `.replace(/"/g, "&quot;")` (global, so all occurrences). -/
def listReplaceAllChar (c : Char) (repl : List Char) : List Char → List Char
  | [] => []
  | x :: rest => (if x = c then repl else [x]) ++ listReplaceAllChar c repl rest

/-- String-level global quote escaping. -/
def escapeQuotes (s : String) : String :=
  ⟨listReplaceAllChar '"' "&quot;".data s.data⟩

/-- The `<img ...>` thumbnail markup assembled by
`localPage.contentFromResponse` (whitespace normalized). -/
def mkThumbnailImg (src alt w h : String) : String :=
  "<img src=\"" ++ src ++ "\" title=\"" ++ alt ++ "\" width=\"" ++ w
    ++ "\" height=\"" ++ h ++ "\" style=\"width: " ++ w
    ++ "px; height: auto;\">"

/-- `Content.contentTypes.localPage.contentFromResponse(response, link,
loadURL)`.  `parse` stands for `newDocument`; `liveDoc` is the live
`document` used when `response` is absent (the current-page call
`processResponse()`).  Returns the content object and the effects fired while
parsing (the thumbnail-caching `doAjax` request and, for fetched responses,
the `GW.contentDidLoad` broadcast), or a thrown exception. -/
def localPageContentFromResponse (parse : String → PageDoc)
    (liveDoc : PageDoc) (response : Option String) (loadURL : Url) :
    Except String (Option PageContent × List Ev) :=
  let page := match response with
              | some r => parse r
              | none => liveDoc
  match page.pageBodyClassesAttr with
  | none => .error "TypeError: meta page-body-classes missing"
  | some classAttr =>
    let pageBodyClasses := splitOnChar ' ' (strTrim classAttr)
    match pageTitleMatch page.titleInnerHTML with
    | none => .error "TypeError: cannot index null title match"
    | some pageTitle =>
      let loadEvs : List Ev :=
        match response with
        | some _ => [.gwContentDidLoad "Content.contentTypes.localPage.load"]
        | none => []
      match page.ogImage with
      | none =>
        .ok (some { title := pageTitle, bodyClasses := pageBodyClasses,
                    thumbnailHTML := none, doc := page,
                    baseLocation := response.map (fun _ => loadURL) },
             loadEvs)
      | some pageThumbnailURL =>
        let pageThumbnailAltText :=
          escapeQuotes (match page.ogImageAlt with
            | some alt => alt
            | none => "Thumbnail image for “" ++ pageTitle ++ "”")
        match page.ogImageWidth, page.ogImageHeight with
        | some w, some h =>
          let pageThumbnailHTML :=
            if strStartsWith pageThumbnailURL.pathname
                "/static/img/logo/logo-" then none
            else some (mkThumbnailImg pageThumbnailURL.href
                pageThumbnailAltText w h)
          .ok (some { title := pageTitle, bodyClasses := pageBodyClasses,
                      thumbnailHTML := pageThumbnailHTML, doc := page,
                      baseLocation := response.map (fun _ => loadURL) },
               [Ev.fetchRequest pageThumbnailURL.href] ++ loadEvs)
        | _, _ => .error "TypeError: og:image dimension meta missing"

/-- The localPage strategy object handed to the loader. -/
def localPageVtable (parse : String → PageDoc) (liveDoc : PageDoc) :
    ContentTypeVtable PageContent :=
  { sourceURLsForLink := fun link => sourceURLsForLinkOfType .localPage link,
    contentFromResponse := fun response _ loadURL =>
      localPageContentFromResponse parse liveDoc response loadURL,
    permittedContentTypes := permittedContentTypesOfType .localPage }

/-- The clone of `#page-metadata` after
`classList.remove("markdownBody")` (the subsequent `removeAttribute` of an
empty class attribute does not change the modelled class list). -/
def stripMarkdownBodyClass : DomNode → DomNode
  | .mk t i c txt h d ch => .mk t i (c.erase "markdownBody") txt h d ch

/-- The `pageContent` fragment assembled by
`localPage.referenceDataFromContent`: the page metadata block (when present,
cloned and stripped of `markdownBody`) followed by the children of
`#markdownBody`. -/
def assemblePageContent (root : DomNode) (mdBody : DomNode) : DomForest :=
  (match findInForest "page-metadata" (.cons root .nil) [] with
   | some (mb, _) => DomForest.cons (stripMarkdownBodyClass mb) .nil
   | none => .nil).append mdBody.children

/-- Match of `/#[sf]n[0-9]/` at the head of a character list: `#`, then `s`
or `f`, then `n`, then a digit. -/
def matchesNoteAt : List Char → Bool
  | '#' :: s :: 'n' :: d :: _ => (s == 's' || s == 'f') && d.isDigit
  | _ => false

/-- Match of `/#fnref[0-9]/` at the head of a character list. -/
def matchesFnrefAt : List Char → Bool
  | '#' :: 'f' :: 'n' :: 'r' :: 'e' :: 'f' :: d :: _ => d.isDigit
  | _ => false

/-- Unanchored regexp test: does the pattern match at some position? -/
def scanAny (p : List Char → Bool) : List Char → Bool
  | [] => p []
  | c :: rest => p (c :: rest) || scanAny p rest

/-- `Notes.noteNumberFromHash(hash)` (misc.js): prepend `#` if missing; a
`/#[sf]n[0-9]/` match yields the text from index 3 on, a `/#fnref[0-9]/`
match the text from index 6 on, otherwise the empty string. -/
def noteNumberFromHash (hash0 : String) : String :=
  let hash := if strStartsWith hash0 "#" then hash0 else "#" ++ hash0
  if scanAny matchesNoteAt hash.data then strDrop hash 3
  else if scanAny matchesFnrefAt hash.data then strDrop hash 6
  else ""

/-- `Notes.noteNumber(element)` (misc.js): `element.hash ?? element.id` —
only anchor elements have a `hash` property (empty when the anchor has no
href), every other element falls back to its id — passed through
`noteNumberFromHash`. -/
def notesNoteNumber (n : DomNode) : String :=
  noteNumberFromHash
    (if n.tag == "a" then
       (match n.hrefAttr with
        | some u => u.hash
        | none => "")
     else n.idAttr)

/-- `Array.prototype.join(" ")` over the title parts. -/
def joinWithSpace : List String → String
  | [] => ""
  | [x] => x
  | x :: rest => x ++ " " ++ joinWithSpace rest

/-- The reference-data record returned by
`localPage.referenceDataFromContent`. -/
structure RefData where
  content : DomForest
  pageTitle : String
  pageBodyClasses : List String
  pageThumbnailHTML : Option String
  popFrameTitleLinkHref : String
  popFrameTitleText : String
  popFrameTitleTextShort : Option String

/-- `Content.contentTypes.localPage.referenceDataFromContent(page, link)`:
assemble the page-content fragment, resolve the link's target element in it,
and build the pop-frame title parts — the page title (unless the link is to
the current page), then the footnote marker or the `&#x00a7;` section mark
with the enclosing section's heading text, or the raw hash when the anchored
element sits in neither. -/
def localPageReferenceDataFromContent (loc : Url) (page : PageContent)
    (link : LinkElement) : Except String RefData :=
  match findInForest "markdownBody" (.cons page.doc.root .nil) [] with
  | none => .error "TypeError: #markdownBody missing"
  | some (mdBody, _) =>
    let pageContent : DomForest := assemblePageContent page.doc.root mdBody
    let element := targetElementInDocument link pageContent
    let parts0 : List String :=
      if link.url.pathname ≠ loc.pathname then [page.title] else []
    let partsE : Except String (List String) :=
      match element with
      | none => .ok parts0
      | some (e, anc) =>
        let nearestSection := closestMatching (fun m => m.tag == "section") e anc
        let nearestFootnote := closestMatching
          (fun m => m.tag == "li" && m.classes.contains "footnote") e anc
        match nearestFootnote with
        | some fn =>
          let base := parts0 ++ ["Footnote", notesNoteNumber fn]
          match findEmptyIdSpanNode fn with
          | some sp => .ok (base ++ ["(#" ++ sp.idAttr ++ ")"])
          | none => .ok base
        | none =>
          match nearestSection with
          | some sec =>
            if sec.idAttr = "footnotes" then
              .ok (parts0 ++ ["&#x00a7;", "Footnotes"])
            else
              match sec.children.head? with
              | none => .error "TypeError: firstElementChild is null"
              | some hd => .ok (parts0 ++ ["&#x00a7;", hd.textContent])
          | none => .ok (parts0 ++ [link.url.hash])
    match partsE with
    | .error e => .error e
    | .ok parts =>
      .ok { content := pageContent, pageTitle := page.title,
            pageBodyClasses := page.bodyClasses,
            pageThumbnailHTML := page.thumbnailHTML,
            popFrameTitleLinkHref := link.url.href,
            popFrameTitleText := joinWithSpace parts,
            popFrameTitleTextShort := parts.head? }

/-! ## The notification center (GW.notificationCenter) -/

/-- A handler object registered with the notification center.  `includes`
compares JavaScript object identity, modelled by a numeric identity `id`;
`once` is the self-cancellation flag.  (The handler's function `f` is
identified with the object.) -/
structure NCHandler where
  id : Nat
  once : Bool
deriving DecidableEq

/-- `GW.notificationCenter.addHandlerForEvent(eventName, handler)` acting on
one event's handler list: a no-op when the same handler object is already
present, otherwise a push. -/
def addHandlerForEvent (l : List NCHandler) (handler : NCHandler) :
    List NCHandler :=
  if l.contains handler then l else l ++ [handler]

/-- `GW.notificationCenter.cancelHandlerForEvent(eventName, handler)`:
`Array.prototype.remove` splices out the first occurrence (by identity). -/
def cancelHandlerForEvent (l : List NCHandler) (handler : NCHandler) :
    List NCHandler :=
  l.erase handler

/-- The `forEach` loop of `fireEvent` with JavaScript live-array semantics:
the iteration bound is the length at call time; when the just-invoked `once`
handler is spliced out, later handlers shift down one index, so the element
that moves into the already-visited position is skipped, and trailing indices
past the shortened length are skipped too. -/
def fireEventAux (m : List NCHandler) (k : Nat) : Nat → List NCHandler
  | 0 => []
  | fuel + 1 =>
    match m.get? k with
    | none => fireEventAux m (k + 1) fuel
    | some handler =>
      handler ::
        fireEventAux
          (if handler.once then cancelHandlerForEvent m handler else m)
          (k + 1) fuel

/-- The sequence of handler invocations performed by
`GW.notificationCenter.fireEvent(eventName)` on one event's handler list. -/
def fireEventInvocations (l : List NCHandler) : List NCHandler :=
  fireEventAux l 0 l.length

/-! ## Concrete fixtures used by witnesses and counterexamples -/

/-- Concrete location (the current page) used by witnesses: `https://gwern.net/`. -/
def witLoc : Url :=
  { protocol := "https:", hostname := "gwern.net", pathname := "/",
    search := "", hash := "" }

/-- Concrete local-page link used by witnesses:
`https://gwern.net/essay?x=1#sec`. -/
def witLink : LinkElement :=
  { url := { protocol := "https:", hostname := "gwern.net",
             pathname := "/essay", search := "?x=1", hash := "#sec" },
    classList := [], dataUrlOriginal := none, dataTargetId := "",
    dataBacklinkTargetUrl := "", annotatedFull := false,
    annotationLink := false }

/-- The empty loader state: nothing cached, nothing traced, no error. -/
def emptyLoadState {γ : Type} : LoadState γ := ⟨[], [], none⟩

/-- Concrete source URL `https://gwern.net/code.js.html` (syntax-highlighted
candidate). -/
def witA : Url :=
  { protocol := "https:", hostname := "gwern.net",
    pathname := "/code.js.html", search := "", hash := "" }

/-- Concrete source URL `https://gwern.net/code.js` (raw-file fallback). -/
def witB : Url :=
  { protocol := "https:", hostname := "gwern.net", pathname := "/code.js",
    search := "", hash := "" }

/-- Concrete code-file link `https://gwern.net/code.js` (matched by
localCodeFile, whose `sourceURLsForLink` yields `[witA, witB]`). -/
def witCodeLink : LinkElement :=
  { url := witB, classList := [], dataUrlOriginal := none, dataTargetId := "",
    dataBacklinkTargetUrl := "", annotatedFull := false,
    annotationLink := false }

/-- A concrete strategy object over trivial content whose parse always
returns a truthy object, with `witCodeLink`'s two candidate URLs. -/
def witVtOk : ContentTypeVtable Unit :=
  { sourceURLsForLink := fun link => sourceURLsForLinkOfType .localCodeFile link,
    contentFromResponse := fun _ _ _ => .ok (some (), []),
    permittedContentTypes := none }

/-- A concrete strategy object whose parse always returns a falsy result. -/
def witVtFalsy : ContentTypeVtable Unit :=
  { sourceURLsForLink := fun link => sourceURLsForLinkOfType .localCodeFile link,
    contentFromResponse := fun _ _ _ => .ok (none, []),
    permittedContentTypes := none }

/-- Fetch oracle: `witA` transport-fails, everything else succeeds. -/
def witFetchAfails : String → FetchResult := fun u =>
  if u = witA.href then .failure else .success (some "text/html") "body"

/-- Fetch oracle: every request transport-fails. -/
def witFetchAllFail : String → FetchResult := fun _ => .failure

/-- Fetch oracle: every request succeeds with an HTML content type. -/
def witFetchAllOk : String → FetchResult :=
  fun _ => .success (some "text/html") "body"

/-- Fetch oracle: every request succeeds with a non-HTML content type. -/
def witFetchBadType : String → FetchResult :=
  fun _ => .success (some "application/octet-stream") "x"

/-- A concrete strategy object with a `permittedContentTypes` allow-list of
`text/html` (as the localFragment and localPage types have). -/
def witVtPerm : ContentTypeVtable Unit :=
  { sourceURLsForLink := fun link => sourceURLsForLinkOfType .localPage link,
    contentFromResponse := fun _ _ _ => .ok (some (), []),
    permittedContentTypes := some ["text/html"] }

/-- Loader state whose cache already holds a Loaded result for `witA.href`. -/
def witCachedState : LoadState Unit := ⟨[(witA.href, .loaded ())], [], none⟩

/-- Loader state whose cache already holds the Failed sentinel for
`witA.href`. -/
def witFailedState : LoadState Unit := ⟨[(witA.href, .loadingFailed)], [], none⟩

/-- A concrete well-formed live page document (no thumbnail meta). -/
def witLiveDoc : PageDoc :=
  { pageBodyClassesAttr := some "page-essay", titleInnerHTML := "Home · Gwern.net",
    ogImage := none, ogImageAlt := none, ogImageWidth := none,
    ogImageHeight := none,
    root := .mk "html" "" [] "" none none .nil }

/-- A concrete link to the current page itself (`https://gwern.net/`). -/
def witSelfLink : LinkElement :=
  { url := { protocol := "https:", hostname := "gwern.net", pathname := "/",
             search := "", hash := "" },
    classList := [], dataUrlOriginal := none, dataTargetId := "",
    dataBacklinkTargetUrl := "", annotatedFull := false,
    annotationLink := false }

/-- Concrete heading element of the test section. -/
def witHeading : DomNode := .mk "h2" "" [] "Heading" none none .nil

/-- Concrete anchored target element `#target`. -/
def witTarget : DomNode := .mk "p" "target" [] "x" none none .nil

/-- Concrete section `#s1` holding the heading and the target. -/
def witSection : DomNode :=
  .mk "section" "s1" [] "" none none
    (.cons witHeading (.cons witTarget .nil))

/-- Concrete heading of the `#footnotes` section, deliberately reading
`Endnotes` (not `Footnotes`). -/
def witFnHeading : DomNode := .mk "h2" "" [] "Endnotes" none none .nil

/-- Concrete anchored target element `#target2` inside `#footnotes`. -/
def witFnTarget : DomNode := .mk "p" "target2" [] "y" none none .nil

/-- Concrete `section#footnotes` holding its heading and `#target2`. -/
def witFnSection : DomNode :=
  .mk "section" "footnotes" [] "" none none
    (.cons witFnHeading (.cons witFnTarget .nil))

/-- Concrete `#markdownBody` element with the ordinary section and the
`#footnotes` section. -/
def witMdBody : DomNode :=
  .mk "div" "markdownBody" ["markdownBody"] "" none none
    (.cons witSection (.cons witFnSection .nil))

/-- A concrete page DOM: a `#markdownBody` whose single section `#s1` holds a
heading and the paragraph `#target`. -/
def witPageRoot : DomNode :=
  .mk "html" "" [] "" none none (.cons witMdBody .nil)

/-- The cached content object for the concrete page. -/
def witPageContent : PageContent :=
  { title := "Essay", bodyClasses := ["page-essay"], thumbnailHTML := none,
    doc := { pageBodyClassesAttr := some "page-essay",
             titleInnerHTML := "Essay · Gwern.net", ogImage := none,
             ogImageAlt := none, ogImageWidth := none, ogImageHeight := none,
             root := witPageRoot },
    baseLocation := some witLink.url }

/-- A concrete anchored link `https://gwern.net/essay#target`. -/
def witAnchorLink : LinkElement :=
  { url := { protocol := "https:", hostname := "gwern.net",
             pathname := "/essay", search := "", hash := "#target" },
    classList := [], dataUrlOriginal := none, dataTargetId := "",
    dataBacklinkTargetUrl := "", annotatedFull := false,
    annotationLink := false }

/-- A concrete anchored link `https://gwern.net/essay#target2` into the
`#footnotes` section. -/
def witAnchorLink2 : LinkElement :=
  { url := { protocol := "https:", hostname := "gwern.net",
             pathname := "/essay", search := "", hash := "#target2" },
    classList := [], dataUrlOriginal := none, dataTargetId := "",
    dataBacklinkTargetUrl := "", annotatedFull := false,
    annotationLink := false }

/-- A concrete whole-page link `https://gwern.net/essay` (no anchor). -/
def witWholePageLink : LinkElement :=
  { url := { protocol := "https:", hostname := "gwern.net",
             pathname := "/essay", search := "", hash := "" },
    classList := [], dataUrlOriginal := none, dataTargetId := "",
    dataBacklinkTargetUrl := "", annotatedFull := false,
    annotationLink := false }

/-! # Theorems -/

/-- Helper: storing under a key makes lookup of that key return the stored
value. -/
theorem cacheLookup_cacheStore_self {γ : Type}
    (c : List (String × CacheEntry γ)) (k : String) (v : CacheEntry γ) :
    cacheLookup (cacheStore c k v) k = some v := by
  induction c with
  | nil => simp [cacheStore, cacheLookup]
  | cons kv rest ih =>
    obtain ⟨k', v'⟩ := kv
    by_cases h : k' = k <;> simp [cacheStore, cacheLookup, h, ih]

/-- Helper: `processResponse` when parsing returns a truthy content object. -/
theorem processResponse_ok_some {γ : Type} (ct : ContentTypeVtable γ)
    (link : LinkElement) (sourceURL : Url) (response : Option String)
    (s : LoadState γ) (c : γ) (evs : List Ev) (key : String)
    (hparse : ct.contentFromResponse response link sourceURL = .ok (some c, evs))
    (hkey : vtableCacheKey ct link = some key) :
    processResponse ct link sourceURL response s =
      { s with cache := cacheStore s.cache key (.loaded c),
               trace := s.trace ++ evs ++ [.contentDidLoad link.url.href] } := by
  simp [processResponse, hparse, hkey]

/-- Helper: `processResponse` when parsing returns a falsy result. -/
theorem processResponse_ok_none {γ : Type} (ct : ContentTypeVtable γ)
    (link : LinkElement) (sourceURL : Url) (response : Option String)
    (s : LoadState γ) (evs : List Ev) (key : String)
    (hparse : ct.contentFromResponse response link sourceURL = .ok (none, evs))
    (hkey : vtableCacheKey ct link = some key) :
    processResponse ct link sourceURL response s =
      { s with cache := cacheStore s.cache key .loadingFailed,
               trace := s.trace ++ evs
                 ++ [.contentLoadDidFail link.url.href,
                     .serverLogError (sourceURL.href ++ "--could-not-process")
                       "problematic content"] } := by
  simp [processResponse, hparse, hkey]

/-- Helper: a non-self-page candidate whose fetch transport-fails, with
fallbacks remaining, advances to the next candidate after recording the
request. -/
theorem loadAux_step_failure {γ : Type} (fetch : String → FetchResult)
    (ct : ContentTypeVtable γ) (loc : Url) (link : LinkElement) (u : Url)
    (rest : List Url) (s : LoadState γ)
    (hnp : u.pathname ≠ loc.pathname)
    (hf : fetch u.href = .failure)
    (hrest : 0 < rest.length) :
    Content.loadAux fetch ct loc link (u :: rest) s =
      Content.loadAux fetch ct loc link rest
        { s with trace := s.trace ++ [.fetchRequest u.href] } := by
  simp [Content.loadAux, hnp, hf, hrest]

/-- Helper: a non-self-page candidate whose fetch succeeds and whose
content-type check passes hands the response to `processResponse` after
recording the request. -/
theorem loadAux_step_success {γ : Type} (fetch : String → FetchResult)
    (ct : ContentTypeVtable γ) (loc : Url) (link : LinkElement) (u : Url)
    (rest : List Url) (s : LoadState γ) (hdr : Option String) (body : String)
    (hnp : u.pathname ≠ loc.pathname)
    (hf : fetch u.href = .success hdr body)
    (hpass : contentTypeCheckPasses ct hdr = true) :
    Content.loadAux fetch ct loc link (u :: rest) s =
      processResponse ct link u (some body)
        { s with trace := s.trace ++ [.fetchRequest u.href] } := by
  unfold contentTypeCheckPasses at hpass
  match hp : ct.permittedContentTypes with
  | none => simp [Content.loadAux, hnp, hf, hp]
  | some permitted =>
    rw [hp] at hpass
    match hdr with
    | none => simp at hpass
    | some h =>
      match hm : headerMainPart h with
      | none => simp [hm] at hpass
      | some mainType =>
        simp only [hm] at hpass
        have hmem : mainType ∈ permitted := by simpa using hpass
        simp [Content.loadAux, hnp, hf, hp, hm, hpass, hmem]

/-- Helper: a non-self-page last candidate whose fetch transport-fails caches
the `LOADING_FAILED` sentinel, fires the failure broadcast, and logs a
missing-content error. -/
theorem loadAux_step_exhausted {γ : Type} (fetch : String → FetchResult)
    (ct : ContentTypeVtable γ) (loc : Url) (link : LinkElement) (u : Url)
    (s : LoadState γ) (key : String)
    (hnp : u.pathname ≠ loc.pathname)
    (hf : fetch u.href = .failure)
    (hkey : vtableCacheKey ct link = some key) :
    Content.loadAux fetch ct loc link [u] s =
      { s with
          cache := cacheStore s.cache key .loadingFailed,
          trace := s.trace ++ [.fetchRequest u.href,
            .contentLoadDidFail link.url.href,
            .serverLogError u.href "missing content"] } := by
  simp [Content.loadAux, hnp, hf, hkey]

/-- Helper: `contentTypeForLink` computed as a first-match chain over the
four registered predicates. -/
theorem contentTypeForLink_chain (loc : Url) (link : LinkElement) :
    Content.contentTypeForLink loc link =
      (if matchesLocalTweetArchive loc link then some .localTweetArchive
       else if matchesLocalCodeFile loc link then some .localCodeFile
       else if matchesLocalFragment loc link then some .localFragment
       else if matchesLocalPage loc link then some .localPage
       else none) := by
  simp only [Content.contentTypeForLink, contentTypesOrder, List.find?,
    ContentTypeName.matches]
  by_cases h1 : matchesLocalTweetArchive loc link <;>
    by_cases h2 : matchesLocalCodeFile loc link <;>
      by_cases h3 : matchesLocalFragment loc link <;>
        by_cases h4 : matchesLocalPage loc link <;>
          simp [h1, h2, h3, h4]

/-- **C7**: `Content.contentTypeForLink` is total and deterministic (it is a
pure function of the link and the location, so repeated calls on the same
link agree) and returns the first descriptor in registration order —
localTweetArchive, localCodeFile, localFragment, localPage — whose `matches`
predicate is true, or null when none matches. -/
theorem contentTypeForLink_first_match_wins (loc : Url) (link : LinkElement) :
    Content.contentTypeForLink loc link =
      (if matchesLocalTweetArchive loc link then some .localTweetArchive
       else if matchesLocalCodeFile loc link then some .localCodeFile
       else if matchesLocalFragment loc link then some .localFragment
       else if matchesLocalPage loc link then some .localPage
       else none) :=
  contentTypeForLink_chain loc link

/-- Helper: every registered `matches` predicate ignores the link URL's
`hash` and `search` components. -/
theorem matches_ignores_hash_search (loc : Url) (l : LinkElement)
    (h2 s2 : String) (ct : ContentTypeName) :
    ct.matches loc { l with url := { l.url with hash := h2, search := s2 } } =
      ct.matches loc l := by
  cases hd : l.dataUrlOriginal <;>
    cases ct <;>
      simp [ContentTypeName.matches, matchesLocalTweetArchive,
        matchesLocalCodeFile, matchesLocalFragment, matchesLocalPage,
        originalURLForLink, hd]

/-- Helper: classification ignores the link URL's `hash` and `search`. -/
theorem contentTypeForLink_ignores_hash_search (loc : Url) (l : LinkElement)
    (h2 s2 : String) :
    Content.contentTypeForLink loc
        { l with url := { l.url with hash := h2, search := s2 } } =
      Content.contentTypeForLink loc l := by
  simp only [Content.contentTypeForLink, contentTypesOrder]
  have hm := matches_ignores_hash_search loc l h2 s2
  simp only [List.find?, hm]

/-- **C9**: the cache key (href of the first source URL) is independent of
the link URL's fragment and query string: a link matched by some registered
content type and the same link with any other `hash` / `search` map to the
same (existing) cache key, because every registered `sourceURLsForLink`
clears the hash and search of the link URL. -/
theorem contentCacheKeyForLink_canonical (loc : Url) (l : LinkElement)
    (h2 s2 : String) (ct : ContentTypeName)
    (hmatch : Content.contentTypeForLink loc l = some ct) :
    Content.contentCacheKeyForLink loc
        { l with url := { l.url with hash := h2, search := s2 } } =
      Content.contentCacheKeyForLink loc l
    ∧ (Content.contentCacheKeyForLink loc l).isSome := by
  have hd := contentTypeForLink_ignores_hash_search loc l h2 s2
  refine ⟨?_, ?_⟩
  · simp only [Content.contentCacheKeyForLink, Content.sourceURLsForLink, hd,
      hmatch, Option.map_some']
    cases ct <;> simp [sourceURLsForLinkOfType]
  · simp [Content.contentCacheKeyForLink, Content.sourceURLsForLink, hmatch]
    cases ct <;> simp [sourceURLsForLinkOfType]

/-- Witness for C9 at the concrete link `https://gwern.net/essay?x=1#sec`. -/
theorem contentCacheKeyForLink_canonical_witness :
    Content.contentTypeForLink witLoc witLink = some .localPage
    ∧ (Content.contentCacheKeyForLink witLoc
          { witLink with url := { witLink.url with hash := "", search := "" } } =
        Content.contentCacheKeyForLink witLoc witLink
       ∧ (Content.contentCacheKeyForLink witLoc witLink).isSome) :=
  ⟨by decide, contentCacheKeyForLink_canonical witLoc witLink "" ""
      .localPage (by decide)⟩

/-- **C3**: fallback exhaustion.  For a link whose matched descriptor yields
source URLs `[A, B]` (neither being the current page) where fetching `A`
transport-fails: if fetching `B` succeeds (content-type check passing, parse
truthy) the resource ends cached Loaded with `B`'s parsed content under the
canonical key (A's href) and no failure broadcast fires; if fetching `B`
also transport-fails the resource ends cached as the `LOADING_FAILED`
sentinel and exactly one failure broadcast fires. -/
theorem load_fallback_exhaustion {γ : Type} (fetch : String → FetchResult)
    (ct : ContentTypeVtable γ) (loc : Url) (link : LinkElement) (A B : Url)
    (s : LoadState γ)
    (hsrc : ct.sourceURLsForLink link = [A, B])
    (hA : A.pathname ≠ loc.pathname) (hB : B.pathname ≠ loc.pathname)
    (hfa : fetch A.href = .failure) :
    (∀ (hdr : Option String) (body : String) (c : γ) (evs : List Ev),
        fetch B.href = .success hdr body →
        contentTypeCheckPasses ct hdr = true →
        ct.contentFromResponse (some body) link B = .ok (some c, evs) →
        evs.countP Ev.isFail = 0 →
        cacheLookup (Content.loadCore fetch ct loc link s).cache A.href
            = some (.loaded c)
        ∧ (Content.loadCore fetch ct loc link s).trace
            = s.trace ++ [.fetchRequest A.href, .fetchRequest B.href] ++ evs
                ++ [.contentDidLoad link.url.href]
        ∧ ((Content.loadCore fetch ct loc link s).trace.drop
              s.trace.length).countP Ev.isFail = 0)
    ∧ (fetch B.href = .failure →
        cacheLookup (Content.loadCore fetch ct loc link s).cache A.href
            = some .loadingFailed
        ∧ (Content.loadCore fetch ct loc link s).trace
            = s.trace ++ [.fetchRequest A.href, .fetchRequest B.href,
                .contentLoadDidFail link.url.href,
                .serverLogError B.href "missing content"]
        ∧ ((Content.loadCore fetch ct loc link s).trace.drop
              s.trace.length).countP Ev.isFail = 1) := by
  have hkey : vtableCacheKey ct link = some A.href := by
    simp [vtableCacheKey, hsrc]
  have hstep1 : Content.loadCore fetch ct loc link s =
      Content.loadAux fetch ct loc link [B]
        { s with trace := s.trace ++ [.fetchRequest A.href] } := by
    unfold Content.loadCore
    rw [hsrc]
    exact loadAux_step_failure fetch ct loc link A [B] s hA hfa (by simp)
  constructor
  · intro hdr body c evs hfb hpass hparse hev
    have hrun : Content.loadCore fetch ct loc link s =
        { s with
            cache := cacheStore s.cache A.href (.loaded c),
            trace := (s.trace ++ [.fetchRequest A.href]
              ++ [.fetchRequest B.href]) ++ evs
              ++ [.contentDidLoad link.url.href] } := by
      rw [hstep1,
        loadAux_step_success fetch ct loc link B [] _ hdr body hB hfb hpass,
        processResponse_ok_some ct link B (some body) _ c evs A.href hparse hkey]
    rw [hrun]
    refine ⟨cacheLookup_cacheStore_self _ _ _, by simp, ?_⟩
    have htr : (s.trace ++ [Ev.fetchRequest A.href]
        ++ [Ev.fetchRequest B.href]) ++ evs
        ++ [Ev.contentDidLoad link.url.href]
        = s.trace ++ ([Ev.fetchRequest A.href, Ev.fetchRequest B.href]
            ++ evs ++ [Ev.contentDidLoad link.url.href]) := by simp
    simp only [htr, List.drop_left]
    simp [List.countP_append, hev, Ev.isFail]
  · intro hfb
    have hrun : Content.loadCore fetch ct loc link s =
        { s with
            cache := cacheStore s.cache A.href .loadingFailed,
            trace := (s.trace ++ [.fetchRequest A.href])
              ++ [.fetchRequest B.href, .contentLoadDidFail link.url.href,
                  .serverLogError B.href "missing content"] } := by
      rw [hstep1, loadAux_step_exhausted fetch ct loc link B _ A.href hB hfb hkey]
    rw [hrun]
    refine ⟨cacheLookup_cacheStore_self _ _ _, by simp, ?_⟩
    have htr : (s.trace ++ [Ev.fetchRequest A.href])
        ++ [Ev.fetchRequest B.href, Ev.contentLoadDidFail link.url.href,
            Ev.serverLogError B.href "missing content"]
        = s.trace ++ ([Ev.fetchRequest A.href]
            ++ [Ev.fetchRequest B.href, Ev.contentLoadDidFail link.url.href,
                Ev.serverLogError B.href "missing content"]) := by simp
    simp only [htr, List.drop_left]
    simp [List.countP_append, Ev.isFail, List.countP_cons]

/-- **C4**: parse failure handling.  For any candidate whose transport
succeeds (content-type check passing) but whose descriptor
`contentFromResponse` yields a falsy result, the cache entry for the
resource's canonical key is set to the `LOADING_FAILED` sentinel (no content
value is cached), exactly one `contentLoadDidFail` broadcast fires, and a
`--could-not-process` failure is logged. -/
theorem load_parse_failure {γ : Type} (fetch : String → FetchResult)
    (ct : ContentTypeVtable γ) (loc : Url) (link : LinkElement)
    (sourceURL : Url) (rest : List Url) (s : LoadState γ)
    (hdr : Option String) (body : String) (evs : List Ev) (key : String)
    (hnp : sourceURL.pathname ≠ loc.pathname)
    (hf : fetch sourceURL.href = .success hdr body)
    (hpass : contentTypeCheckPasses ct hdr = true)
    (hparse : ct.contentFromResponse (some body) link sourceURL
        = .ok (none, evs))
    (hkey : vtableCacheKey ct link = some key)
    (hev : evs.countP Ev.isFail = 0) :
    cacheLookup
        (Content.loadAux fetch ct loc link (sourceURL :: rest) s).cache key
      = some .loadingFailed
    ∧ (Content.loadAux fetch ct loc link (sourceURL :: rest) s).trace
        = s.trace ++ [.fetchRequest sourceURL.href] ++ evs
          ++ [.contentLoadDidFail link.url.href,
              .serverLogError (sourceURL.href ++ "--could-not-process")
                "problematic content"]
    ∧ ((Content.loadAux fetch ct loc link (sourceURL :: rest) s).trace.drop
          s.trace.length).countP Ev.isFail = 1 := by
  have hrun : Content.loadAux fetch ct loc link (sourceURL :: rest) s =
      { s with
          cache := cacheStore s.cache key .loadingFailed,
          trace := (s.trace ++ [.fetchRequest sourceURL.href]) ++ evs
            ++ [.contentLoadDidFail link.url.href,
                .serverLogError (sourceURL.href ++ "--could-not-process")
                  "problematic content"] } := by
    rw [loadAux_step_success fetch ct loc link sourceURL rest s hdr body hnp hf
        hpass,
      processResponse_ok_none ct link sourceURL (some body) _ evs key hparse
        hkey]
  rw [hrun]
  refine ⟨cacheLookup_cacheStore_self _ _ _, by simp, ?_⟩
  have htr : (s.trace ++ [Ev.fetchRequest sourceURL.href]) ++ evs
      ++ [Ev.contentLoadDidFail link.url.href,
          Ev.serverLogError (sourceURL.href ++ "--could-not-process")
            "problematic content"]
      = s.trace ++ ([Ev.fetchRequest sourceURL.href] ++ evs
          ++ [Ev.contentLoadDidFail link.url.href,
              Ev.serverLogError (sourceURL.href ++ "--could-not-process")
                "problematic content"]) := by simp
  simp only [htr, List.drop_left]
  simp [List.countP_append, hev, Ev.isFail, List.countP_cons]

/-- Witness for C3 at concrete inputs: the code-file candidate list
`[witA, witB]`; when `witA` fails and `witB` succeeds the resource ends
Loaded; when both fail it ends Failed. -/
theorem load_fallback_exhaustion_witness :
    cacheLookup (Content.loadCore witFetchAfails witVtOk witLoc witCodeLink
        emptyLoadState).cache witA.href = some (.loaded ())
    ∧ cacheLookup (Content.loadCore witFetchAllFail witVtOk witLoc witCodeLink
        emptyLoadState).cache witA.href = some .loadingFailed :=
  ⟨((load_fallback_exhaustion witFetchAfails witVtOk witLoc witCodeLink witA
      witB emptyLoadState (by decide) (by decide) (by decide) (by decide)).1
      (some "text/html") "body" () [] (by decide) (by decide) rfl
      (by decide)).1,
   ((load_fallback_exhaustion witFetchAllFail witVtOk witLoc witCodeLink witA
      witB emptyLoadState (by decide) (by decide) (by decide) rfl).2 rfl).1⟩

/-- Witness for C4 at concrete inputs: transport succeeds for `witB` but the
parse yields a falsy result, so the `LOADING_FAILED` sentinel is cached. -/
theorem load_parse_failure_witness :
    cacheLookup (Content.loadAux witFetchAfails witVtFalsy witLoc witCodeLink
        [witB] emptyLoadState).cache witA.href = some .loadingFailed :=
  (load_parse_failure witFetchAfails witVtFalsy witLoc witCodeLink witB []
    emptyLoadState (some "text/html") "body" [] witA.href (by decide)
    (by decide) (by decide) rfl (by decide) (by decide)).1

/-- **C6**: self-page short-circuit.  For a localPage link whose (hash- and
search-cleared) source URL has the current page's pathname, `Content.load`
synchronously caches a content object built from the live document — the
cached `doc` is the live document itself and `baseLocation` is unset — and
the trace gains only the `contentDidLoad` broadcast: no network request at
all is issued for the page. -/
theorem load_self_page_short_circuit (parse : String → PageDoc)
    (liveDoc : PageDoc) (fetch : String → FetchResult) (loc : Url)
    (link : LinkElement) (s : LoadState PageContent)
    (classAttr pageTitle : String)
    (_hmatch : Content.contentTypeForLink loc link = some .localPage)
    (hself : link.url.pathname = loc.pathname)
    (hwf1 : liveDoc.pageBodyClassesAttr = some classAttr)
    (hwf2 : pageTitleMatch liveDoc.titleInnerHTML = some pageTitle)
    (hthumb : liveDoc.ogImage = none) :
    cacheLookup (Content.loadCore fetch (localPageVtable parse liveDoc) loc
        link s).cache
        ({ link.url with hash := "", search := "" } : Url).href
      = some (.loaded
          { title := pageTitle,
            bodyClasses := splitOnChar ' ' (strTrim classAttr),
            thumbnailHTML := none, doc := liveDoc, baseLocation := none })
    ∧ (Content.loadCore fetch (localPageVtable parse liveDoc) loc link
        s).trace = s.trace ++ [.contentDidLoad link.url.href] := by
  have hparse : (localPageVtable parse liveDoc).contentFromResponse none link
      ({ link.url with hash := "", search := "" } : Url)
      = .ok (some { title := pageTitle,
                    bodyClasses := splitOnChar ' ' (strTrim classAttr),
                    thumbnailHTML := none, doc := liveDoc,
                    baseLocation := none }, []) := by
    simp [localPageVtable, localPageContentFromResponse, hwf1, hwf2, hthumb]
  have hkey : vtableCacheKey (localPageVtable parse liveDoc) link
      = some ({ link.url with hash := "", search := "" } : Url).href := rfl
  have hrun : Content.loadCore fetch (localPageVtable parse liveDoc) loc link s
      = processResponse (localPageVtable parse liveDoc) link
          ({ link.url with hash := "", search := "" } : Url) none s := by
    unfold Content.loadCore
    show Content.loadAux fetch (localPageVtable parse liveDoc) loc link
      [{ link.url with hash := "", search := "" }] s = _
    unfold Content.loadAux
    rw [if_pos]
    show ({ link.url with hash := "", search := "" } : Url).pathname
      = loc.pathname
    exact hself
  rw [hrun, processResponse_ok_some (localPageVtable parse liveDoc) link
    ({ link.url with hash := "", search := "" } : Url) none s _ []
    ({ link.url with hash := "", search := "" } : Url).href hparse hkey]
  exact ⟨cacheLookup_cacheStore_self _ _ _, by simp⟩

/-- Witness for C6: the link `https://gwern.net/` on the page
`https://gwern.net/` resolves from the live document with no fetch. -/
theorem load_self_page_short_circuit_witness :
    cacheLookup (Content.loadCore witFetchAllFail
        (localPageVtable (fun _ => witLiveDoc) witLiveDoc) witLoc witSelfLink
        emptyLoadState).cache
        ({ witSelfLink.url with hash := "", search := "" } : Url).href
      = some (.loaded
          { title := "Home",
            bodyClasses := splitOnChar ' ' (strTrim "page-essay"),
            thumbnailHTML := none, doc := witLiveDoc, baseLocation := none })
    ∧ (Content.loadCore witFetchAllFail
        (localPageVtable (fun _ => witLiveDoc) witLiveDoc) witLoc witSelfLink
        emptyLoadState).trace = [] ++ [.contentDidLoad witSelfLink.url.href] :=
  load_self_page_short_circuit (fun _ => witLiveDoc) witLiveDoc witFetchAllFail
    witLoc witSelfLink emptyLoadState "page-essay" "Home" (by decide) rfl rfl
    (by rfl) rfl

/-- **C2 (amended)**: a content-type mismatch (header absent, or its main
part not in the allow-list) abandons the load for that candidate with no
fallback retry — but contrary to the original claim the cache is left
untouched (the resource is never marked Failed), no failure broadcast fires,
and the attempted bad-content-type log evaluates the undefined identifier
`includeLink`, so a ReferenceError is thrown and no log request is issued
either. -/
theorem load_contentType_mismatch_aborts {γ : Type}
    (fetch : String → FetchResult) (ct : ContentTypeVtable γ) (loc : Url)
    (link : LinkElement) (sourceURL : Url) (rest : List Url)
    (s : LoadState γ) (hdr : Option String) (body : String)
    (permitted : List String)
    (hnp : sourceURL.pathname ≠ loc.pathname)
    (hf : fetch sourceURL.href = .success hdr body)
    (hperm : ct.permittedContentTypes = some permitted)
    (hmm : hdr = none ∨ ∃ h m, hdr = some h ∧ headerMainPart h = some m
        ∧ permitted.contains m = false) :
    (Content.loadAux fetch ct loc link (sourceURL :: rest) s).cache = s.cache
    ∧ (Content.loadAux fetch ct loc link (sourceURL :: rest) s).trace
        = s.trace ++ [.fetchRequest sourceURL.href]
    ∧ (Content.loadAux fetch ct loc link (sourceURL :: rest) s).uncaughtError
        = some "ReferenceError: includeLink is not defined" := by
  rcases hmm with hnone | ⟨h, m, hh, hm, hcont⟩
  · subst hnone
    refine ⟨?_, ?_, ?_⟩ <;> simp [Content.loadAux, hnp, hf, hperm]
  · subst hh
    have hnm : m ∉ permitted := by simpa using hcont
    refine ⟨?_, ?_, ?_⟩ <;>
      simp [Content.loadAux, hnp, hf, hperm, hm, hnm]

/-- Witness for the amended C2 at a concrete octet-stream response. -/
theorem load_contentType_mismatch_aborts_witness :
    (Content.loadAux witFetchBadType witVtPerm witLoc witLink
        [{ witLink.url with hash := "", search := "" }]
        emptyLoadState).cache = ([] : List (String × CacheEntry Unit))
    ∧ (Content.loadAux witFetchBadType witVtPerm witLoc witLink
        [{ witLink.url with hash := "", search := "" }]
        emptyLoadState).uncaughtError
        = some "ReferenceError: includeLink is not defined" :=
  ⟨(load_contentType_mismatch_aborts witFetchBadType witVtPerm witLoc witLink
      { witLink.url with hash := "", search := "" } [] emptyLoadState
      (some "application/octet-stream") "x" ["text/html"] (by decide)
      (by decide) rfl
      (Or.inr ⟨"application/octet-stream", "application/octet-stream", rfl,
        by decide, by decide⟩)).1,
   (load_contentType_mismatch_aborts witFetchBadType witVtPerm witLoc witLink
      { witLink.url with hash := "", search := "" } [] emptyLoadState
      (some "application/octet-stream") "x" ["text/html"] (by decide)
      (by decide) rfl
      (Or.inr ⟨"application/octet-stream", "application/octet-stream", rfl,
        by decide, by decide⟩)).2.2⟩

/-- Counterexample to C2 as stated: on a mismatched content type the code
does **not** cache the Failed sentinel (the key stays absent), fires no
failure broadcast, and issues no server log request (the log call throws on
the undefined `includeLink` first). -/
theorem load_contentType_mismatch_counterexample :
    cacheLookup (Content.loadCore witFetchBadType witVtPerm witLoc witLink
        emptyLoadState).cache "https://gwern.net/essay" = none
    ∧ (Content.loadCore witFetchBadType witVtPerm witLoc witLink
        emptyLoadState).trace.countP Ev.isFail = 0
    ∧ (Content.loadCore witFetchBadType witVtPerm witLoc witLink
        emptyLoadState).trace.countP
        (fun e => match e with
                  | .serverLogError _ _ => true
                  | _ => false) = 0 := by
  decide

/-- **C5 (amended)**: `Content.cachedDataExists` returns true exactly for
links whose cache entry is Loaded; it returns false both for the Failed
sentinel and for absent entries (stated for links that are not the current
page, whose read triggers no side effect: the state is returned unchanged). -/
theorem cachedDataExists_true_iff_loaded {γ : Type}
    (fetch : String → FetchResult) (ct : ContentTypeVtable γ) (loc : Url)
    (link : LinkElement) (s : LoadState γ) (key : String)
    (hnp : link.url.pathname ≠ loc.pathname)
    (hkey : vtableCacheKey ct link = some key) :
    ((Content.cachedDataExists fetch ct loc link s).2 = true
      ↔ ∃ c, cacheLookup s.cache key = some (.loaded c))
    ∧ (Content.cachedDataExists fetch ct loc link s).1 = s := by
  unfold Content.cachedDataExists Content.cachedContentForLink
  simp only [hnp, if_neg, ite_false, hkey]
  rcases hc : cacheLookup s.cache key with _ | entry
  · simp [hc]
  · cases entry <;> simp [hc]

/-- Witness for the amended C5 at a concrete Loaded cache entry. -/
theorem cachedDataExists_true_iff_loaded_witness :
    (Content.cachedDataExists witFetchAllFail witVtOk witLoc witCodeLink
        witCachedState).2 = true :=
  ((cachedDataExists_true_iff_loaded witFetchAllFail witVtOk witLoc
      witCodeLink witCachedState witA.href (by decide) (by decide)).1).mpr
    ⟨(), by decide⟩

/-- Counterexample to C5 as stated: for a cache entry holding the Failed
sentinel, `Content.cachedDataExists` returns **false** (the claim asserts it
returns true for failed entries). -/
theorem cachedDataExists_counterexample :
    cacheLookup witFailedState.cache witA.href = some .loadingFailed
    ∧ (Content.cachedDataExists witFetchAllFail witVtOk witLoc witCodeLink
        witFailedState).2 = false := by
  decide

/-- Helper: `processResponse` only ever appends to the trace. -/
theorem processResponse_trace_mono {γ : Type} (ct : ContentTypeVtable γ)
    (link : LinkElement) (sourceURL : Url) (response : Option String)
    (s : LoadState γ) :
    ∃ t, (processResponse ct link sourceURL response s).trace
      = s.trace ++ t := by
  rcases hp : ct.contentFromResponse response link sourceURL with e | ⟨c?, evs⟩
  · exact ⟨[], by simp [processResponse, hp]⟩
  · rcases hk : vtableCacheKey ct link with _ | key
    · exact ⟨evs, by simp [processResponse, hp, hk]⟩
    · rcases c? with _ | c
      · exact ⟨evs ++ [.contentLoadDidFail link.url.href,
          .serverLogError (sourceURL.href ++ "--could-not-process")
            "problematic content"], by simp [processResponse, hp, hk]⟩
      · exact ⟨evs ++ [.contentDidLoad link.url.href],
          by simp [processResponse, hp, hk]⟩

/-- Helper: `Content.loadAux` only ever appends to the trace. -/
theorem loadAux_trace_mono {γ : Type} (fetch : String → FetchResult)
    (ct : ContentTypeVtable γ) (loc : Url) (link : LinkElement) :
    ∀ (urls : List Url) (s : LoadState γ),
      ∃ t, (Content.loadAux fetch ct loc link urls s).trace = s.trace ++ t := by
  intro urls
  induction urls with
  | nil => intro s; exact ⟨[], by simp [Content.loadAux]⟩
  | cons u rest ih =>
    intro s
    by_cases hp : u.pathname = loc.pathname
    · obtain ⟨t, ht⟩ := processResponse_trace_mono ct link u none s
      exact ⟨t, by simpa [Content.loadAux, hp] using ht⟩
    · cases hf : fetch u.href with
      | success hdr body =>
        rcases hperm : ct.permittedContentTypes with _ | permitted
        · obtain ⟨t, ht⟩ := processResponse_trace_mono ct link u (some body)
            { s with trace := s.trace ++ [.fetchRequest u.href] }
          refine ⟨[Ev.fetchRequest u.href] ++ t, ?_⟩
          simp only [Content.loadAux, hp, if_neg, ite_false, hf, hperm] at ht ⊢
          simp only [ht]
          simp
        · rcases hdr with _ | h
          · exact ⟨[Ev.fetchRequest u.href],
              by simp [Content.loadAux, hp, hf, hperm]⟩
          · rcases hm : headerMainPart h with _ | mainType
            · exact ⟨[Ev.fetchRequest u.href],
                by simp [Content.loadAux, hp, hf, hperm, hm]⟩
            · by_cases hc : mainType ∈ permitted
              · have hcb : permitted.contains mainType = true := by
                  simpa using hc
                obtain ⟨t, ht⟩ := processResponse_trace_mono ct link u
                  (some body)
                  { s with trace := s.trace ++ [.fetchRequest u.href] }
                refine ⟨[Ev.fetchRequest u.href] ++ t, ?_⟩
                simp only [Content.loadAux, hp, if_neg, ite_false, hf, hperm,
                  hm, hcb, if_true]
                rw [ht]
                simp
              · exact ⟨[Ev.fetchRequest u.href],
                  by simp [Content.loadAux, hp, hf, hperm, hm, hc]⟩
      | failure =>
        by_cases hr : 0 < rest.length
        · obtain ⟨t, ht⟩ := ih { s with trace := s.trace ++ [.fetchRequest u.href] }
          refine ⟨[Ev.fetchRequest u.href] ++ t, ?_⟩
          simp only [Content.loadAux, hp, if_neg, ite_false, hf, hr, if_true] at ht ⊢
          simp only [ht]
          simp
        · rcases hk : vtableCacheKey ct link with _ | key
          · exact ⟨[Ev.fetchRequest u.href],
              by simp [Content.loadAux, hp, hf, hr, hk]⟩
          · exact ⟨[Ev.fetchRequest u.href, .contentLoadDidFail link.url.href,
              .serverLogError u.href "missing content"],
              by simp [Content.loadAux, hp, hf, hr, hk]⟩

/-- Helper: for a non-self-page first candidate, `Content.loadAux` *always*
records a network request for it first, whatever the cache holds. -/
theorem loadAux_cons_fetch {γ : Type} (fetch : String → FetchResult)
    (ct : ContentTypeVtable γ) (loc : Url) (link : LinkElement) (u : Url)
    (rest : List Url) (s : LoadState γ)
    (hnp : u.pathname ≠ loc.pathname) :
    ∃ t, (Content.loadAux fetch ct loc link (u :: rest) s).trace
      = s.trace ++ [.fetchRequest u.href] ++ t := by
  cases hf : fetch u.href with
  | success hdr body =>
    rcases hperm : ct.permittedContentTypes with _ | permitted
    · obtain ⟨t, ht⟩ := processResponse_trace_mono ct link u (some body)
        { s with trace := s.trace ++ [.fetchRequest u.href] }
      refine ⟨t, ?_⟩
      simp only [Content.loadAux, hnp, if_neg, ite_false, hf, hperm]
      simpa using ht
    · rcases hdr with _ | h
      · exact ⟨[], by simp [Content.loadAux, hnp, hf, hperm]⟩
      · rcases hm : headerMainPart h with _ | mainType
        · exact ⟨[], by simp [Content.loadAux, hnp, hf, hperm, hm]⟩
        · by_cases hcb : permitted.contains mainType = true
          · obtain ⟨t, ht⟩ := processResponse_trace_mono ct link u (some body)
              { s with trace := s.trace ++ [.fetchRequest u.href] }
            refine ⟨t, ?_⟩
            simp only [Content.loadAux, hnp, if_neg, ite_false, hf, hperm, hm,
              hcb, if_true]
            simpa using ht
          · refine ⟨[], ?_⟩
            have hnm : mainType ∉ permitted := by
              simpa using hcb
            simp [Content.loadAux, hnp, hf, hperm, hm, hnm]
  | failure =>
    by_cases hr : 0 < rest.length
    · obtain ⟨t, ht⟩ := loadAux_trace_mono fetch ct loc link rest
        { s with trace := s.trace ++ [.fetchRequest u.href] }
      refine ⟨t, ?_⟩
      simp only [Content.loadAux, hnp, if_neg, ite_false, hf, hr, if_true]
      simpa using ht
    · rcases hk : vtableCacheKey ct link with _ | key
      · exact ⟨[], by simp [Content.loadAux, hnp, hf, hr, hk]⟩
      · exact ⟨[.contentLoadDidFail link.url.href,
          .serverLogError u.href "missing content"],
          by simp [Content.loadAux, hnp, hf, hr, hk]⟩

/-- **C1 (amended)**: `Content.load` itself performs no cache short-circuit —
for a link whose first source URL is not the current page it always issues a
new network request, whatever the cache holds.  The cached-result return to
callers lives in `Content.waitForDataLoad` (which `load` delegates handler
invocation to): for a non-self-page link whose key is already Loaded (resp.
Failed) it synchronously invokes the load (resp. failure) handler exactly
once, subscribes no notification handlers, and leaves the state unchanged. -/
theorem load_terminal_stability_amended {γ : Type}
    (fetch : String → FetchResult) (ct : ContentTypeVtable γ) (loc : Url)
    (link : LinkElement) (s : LoadState γ) (key : String) (u : Url)
    (rest : List Url)
    (hnp : link.url.pathname ≠ loc.pathname)
    (hkey : vtableCacheKey ct link = some key)
    (hsrc : ct.sourceURLsForLink link = u :: rest)
    (hu : u.pathname ≠ loc.pathname) :
    (∀ c, cacheLookup s.cache key = some (.loaded c) →
        Content.waitForDataLoad fetch ct loc link s
          = ⟨s, [.loadHandler], false⟩)
    ∧ (cacheLookup s.cache key = some .loadingFailed →
        Content.waitForDataLoad fetch ct loc link s
          = ⟨s, [.loadFailHandler], false⟩)
    ∧ (Content.loadCore fetch ct loc link s).trace.take (s.trace.length + 1)
        = s.trace ++ [.fetchRequest u.href] := by
  refine ⟨?_, ?_, ?_⟩
  · intro c hc
    unfold Content.waitForDataLoad Content.cachedContentForLink
    simp [hnp, hkey, hc]
  · intro hc
    unfold Content.waitForDataLoad Content.cachedContentForLink
    simp [hnp, hkey, hc]
  · obtain ⟨t, ht⟩ := loadAux_cons_fetch fetch ct loc link u rest s hu
    unfold Content.loadCore
    rw [hsrc, ht, List.append_assoc, List.take_append 1]
    simp

/-- Witness for the amended C1: with `witA.href` already Loaded,
`waitForDataLoad` invokes the load handler immediately without touching the
state, while `Content.load`'s body still begins by fetching `witA`. -/
theorem load_terminal_stability_amended_witness :
    Content.waitForDataLoad witFetchAllOk witVtOk witLoc witCodeLink
        witCachedState = ⟨witCachedState, [.loadHandler], false⟩
    ∧ (Content.loadCore witFetchAllOk witVtOk witLoc witCodeLink
        witCachedState).trace.take 1 = [.fetchRequest witA.href] :=
  ⟨(load_terminal_stability_amended witFetchAllOk witVtOk witLoc witCodeLink
      witCachedState witA.href witA [witB] (by decide) (by decide) (by decide)
      (by decide)).1 () (by decide),
   by
    have h := (load_terminal_stability_amended witFetchAllOk witVtOk witLoc
      witCodeLink witCachedState witA.href witA [witB] (by decide) (by decide)
      (by decide) (by decide)).2.2
    simpa using h⟩

/-- Counterexample to C1 as stated: starting from a state whose cache already
holds a Loaded result for the link's key (trace empty since the first load),
a further `Content.load` call issues a new network request (the claim says
none) and fires another `contentDidLoad` broadcast (the claim says no
duplicate). -/
theorem load_terminal_stability_counterexample :
    cacheLookup witCachedState.cache witA.href = some (.loaded ())
    ∧ (Content.loadCore witFetchAllOk witVtOk witLoc witCodeLink
        witCachedState).trace.countP Ev.isFetch = 1
    ∧ (Content.loadCore witFetchAllOk witVtOk witLoc witCodeLink
        witCachedState).trace.countP Ev.isDidLoad = 1 := by
  decide

/-- Helper: joining the three title parts around the section mark. -/
theorem joinWithSpace_section (a c : String) :
    joinWithSpace [a, "&#x00a7;", c] = a ++ " &#x00a7; " ++ c := by
  show a ++ " " ++ ("&#x00a7;" ++ " " ++ c) = a ++ " &#x00a7; " ++ c
  apply String.ext
  simp [String.data_append]

/-- **C8 (amended)**: anchored-section title suffix.  For a link whose
anchor resolves to an element of the assembled page content that sits inside
a section and in no footnote, the localPage reference data's pop-frame title
is the page title suffixed with the section mark `&#x00a7;` (§) followed by
the enclosing section's heading text — except when that section is
`#footnotes`, where the code uses the literal `Footnotes` instead of the
heading; for a whole-page link (no anchor) the title is the page title
alone, with no element-scoped suffix. -/
theorem localPage_referenceData_title_suffix (loc : Url)
    (page : PageContent) (link link2 link3 : LinkElement) (mdBody : DomNode)
    (mdAnc : List DomNode) (e sec hd e2 sec2 : DomNode)
    (anc anc2 : List DomNode)
    (hmd : findInForest "markdownBody" (.cons page.doc.root .nil) []
        = some (mdBody, mdAnc))
    (hfind : targetElementInDocument link
        (assemblePageContent page.doc.root mdBody) = some (e, anc))
    (hfoot : closestMatching
        (fun m => m.tag == "li" && m.classes.contains "footnote") e anc
        = none)
    (hsec : closestMatching (fun m => m.tag == "section") e anc = some sec)
    (hsid : sec.idAttr ≠ "footnotes")
    (hhd : sec.children.head? = some hd)
    (hpath : link.url.pathname ≠ loc.pathname)
    (hpath2 : link2.url.pathname ≠ loc.pathname)
    (hnoanchor : anchorsForLink link2 = [])
    (hfind3 : targetElementInDocument link3
        (assemblePageContent page.doc.root mdBody) = some (e2, anc2))
    (hfoot3 : closestMatching
        (fun m => m.tag == "li" && m.classes.contains "footnote") e2 anc2
        = none)
    (hsec3 : closestMatching (fun m => m.tag == "section") e2 anc2
        = some sec2)
    (hsid3 : sec2.idAttr = "footnotes")
    (hpath3 : link3.url.pathname ≠ loc.pathname) :
    localPageReferenceDataFromContent loc page link
      = .ok { content := assemblePageContent page.doc.root mdBody,
              pageTitle := page.title, pageBodyClasses := page.bodyClasses,
              pageThumbnailHTML := page.thumbnailHTML,
              popFrameTitleLinkHref := link.url.href,
              popFrameTitleText :=
                page.title ++ " &#x00a7; " ++ hd.textContent,
              popFrameTitleTextShort := some page.title }
    ∧ localPageReferenceDataFromContent loc page link2
      = .ok { content := assemblePageContent page.doc.root mdBody,
              pageTitle := page.title, pageBodyClasses := page.bodyClasses,
              pageThumbnailHTML := page.thumbnailHTML,
              popFrameTitleLinkHref := link2.url.href,
              popFrameTitleText := page.title,
              popFrameTitleTextShort := some page.title }
    ∧ localPageReferenceDataFromContent loc page link3
      = .ok { content := assemblePageContent page.doc.root mdBody,
              pageTitle := page.title, pageBodyClasses := page.bodyClasses,
              pageThumbnailHTML := page.thumbnailHTML,
              popFrameTitleLinkHref := link3.url.href,
              popFrameTitleText := page.title ++ " &#x00a7; " ++ "Footnotes",
              popFrameTitleTextShort := some page.title } := by
  refine ⟨?_, ?_, ?_⟩
  · unfold localPageReferenceDataFromContent
    simp only [hmd, hfind, hfoot, hsec, hhd]
    simp [hpath, hsid, joinWithSpace_section]
  · unfold localPageReferenceDataFromContent
    have hnone : targetElementInDocument link2
        (assemblePageContent page.doc.root mdBody) = none := by
      simp [targetElementInDocument, isAnchorLink, hnoanchor]
    simp only [hmd, hnone]
    simp [hpath2, joinWithSpace]
  · unfold localPageReferenceDataFromContent
    simp only [hmd, hfind3, hfoot3, hsec3]
    simp [hpath3, hsid3, joinWithSpace_section]

/-- Witness for the amended C8 at the concrete page: the anchored link into
`#s1` yields `Essay &#x00a7; Heading`, the whole-page link yields `Essay`,
and the anchored link into `#footnotes` yields `Essay &#x00a7; Footnotes`. -/
theorem localPage_referenceData_title_suffix_witness :
    localPageReferenceDataFromContent witLoc witPageContent witAnchorLink
      = .ok { content := assemblePageContent witPageContent.doc.root witMdBody,
              pageTitle := witPageContent.title,
              pageBodyClasses := witPageContent.bodyClasses,
              pageThumbnailHTML := witPageContent.thumbnailHTML,
              popFrameTitleLinkHref := witAnchorLink.url.href,
              popFrameTitleText :=
                witPageContent.title ++ " &#x00a7; " ++ witHeading.textContent,
              popFrameTitleTextShort := some witPageContent.title }
    ∧ localPageReferenceDataFromContent witLoc witPageContent witWholePageLink
      = .ok { content := assemblePageContent witPageContent.doc.root witMdBody,
              pageTitle := witPageContent.title,
              pageBodyClasses := witPageContent.bodyClasses,
              pageThumbnailHTML := witPageContent.thumbnailHTML,
              popFrameTitleLinkHref := witWholePageLink.url.href,
              popFrameTitleText := witPageContent.title,
              popFrameTitleTextShort := some witPageContent.title }
    ∧ localPageReferenceDataFromContent witLoc witPageContent witAnchorLink2
      = .ok { content := assemblePageContent witPageContent.doc.root witMdBody,
              pageTitle := witPageContent.title,
              pageBodyClasses := witPageContent.bodyClasses,
              pageThumbnailHTML := witPageContent.thumbnailHTML,
              popFrameTitleLinkHref := witAnchorLink2.url.href,
              popFrameTitleText :=
                witPageContent.title ++ " &#x00a7; " ++ "Footnotes",
              popFrameTitleTextShort := some witPageContent.title } :=
  localPage_referenceData_title_suffix witLoc witPageContent witAnchorLink
    witWholePageLink witAnchorLink2 witMdBody [witPageRoot] witTarget
    witSection witHeading witFnTarget witFnSection [witSection] [witFnSection]
    rfl rfl rfl rfl (by decide) rfl (by decide) (by decide) rfl rfl rfl rfl
    rfl (by decide)

/-- Counterexample to C8 as stated: a link anchored into `section#footnotes`
is inside a section and in no footnote, yet the pop-frame title is suffixed
with the literal `Footnotes` rather than the enclosing section's heading
text (`Endnotes` in this page). -/
theorem localPage_referenceData_section_suffix_counterexample :
    (localPageReferenceDataFromContent witLoc witPageContent
        witAnchorLink2).map RefData.popFrameTitleText
      = .ok ("Essay" ++ " &#x00a7; " ++ "Footnotes")
    ∧ witFnSection.children.head? = some witFnHeading
    ∧ witFnHeading.textContent = "Endnotes"
    ∧ ("Essay" ++ " &#x00a7; " ++ "Footnotes" : String)
        ≠ "Essay" ++ " &#x00a7; " ++ witFnHeading.textContent := by
  refine ⟨?_, rfl, rfl, by decide⟩
  rfl

/-- Helper: the invocations performed by the `fireEvent` loop starting at
index `k` form a sublist of the handlers at positions `k` and later —
regardless of `once` flags and mid-iteration splices. -/
theorem fireEventAux_sublist :
    ∀ (fuel : Nat) (m : List NCHandler) (k : Nat),
      List.Sublist (fireEventAux m k fuel) (m.drop k) := by
  intro fuel
  induction fuel with
  | zero => intro m k; simp [fireEventAux]
  | succ fuel ih =>
    intro m k
    unfold fireEventAux
    rcases hget : m.get? k with _ | handler
    · have h1 := ih m (k + 1)
      have h2 : List.Sublist (m.drop (k + 1)) (m.drop k) := by
        have h3 := List.drop_sublist 1 (m.drop k)
        rwa [List.drop_drop] at h3
      exact h1.trans h2
    · have hdk : m.drop k = handler :: m.drop (k + 1) := by
        obtain ⟨hk, hg⟩ := List.get?_eq_some.mp hget
        rw [List.drop_eq_getElem_cons hk]
        simp only [List.get_eq_getElem] at hg
        simp [hg]
      by_cases ho : handler.once
      · simp only [ho, if_true]
        have h1 := ih (cancelHandlerForEvent m handler) (k + 1)
        have h2 : List.Sublist ((cancelHandlerForEvent m handler).drop (k + 1))
            (m.drop (k + 1)) :=
          (List.erase_sublist handler m).drop (k + 1)
        rw [hdk]
        exact List.Sublist.cons₂ handler (h1.trans h2)
      · simp only [ho, if_false]
        have h1 := ih m (k + 1)
        rw [hdk]
        exact List.Sublist.cons₂ handler h1

/-- **C10**: idempotent handler registration.  Registering the same handler
object a second time via `addHandlerForEvent` is a no-op; starting from a
duplicate-free handler list the list stays duplicate-free; and during a
`fireEvent` over the resulting list every handler is invoked at most once. -/
theorem addHandlerForEvent_idempotent (l : List NCHandler)
    (handler : NCHandler) (hnd : l.Nodup) :
    addHandlerForEvent (addHandlerForEvent l handler) handler
        = addHandlerForEvent l handler
    ∧ (addHandlerForEvent l handler).Nodup
    ∧ ∀ g : NCHandler,
        (fireEventInvocations (addHandlerForEvent l handler)).count g ≤ 1 := by
  have habsorb : ∀ m : List NCHandler, m.contains handler = true →
      addHandlerForEvent m handler = m := by
    intro m hm
    have hm' : handler ∈ m := by simpa using hm
    unfold addHandlerForEvent
    simp [hm']
  have hmem : (addHandlerForEvent l handler).contains handler = true := by
    unfold addHandlerForEvent
    by_cases h : handler ∈ l <;> simp [h]
  have hnd' : (addHandlerForEvent l handler).Nodup := by
    unfold addHandlerForEvent
    by_cases h : handler ∈ l
    · simpa [h] using hnd
    · simp [h, List.nodup_append, hnd]
  refine ⟨habsorb _ hmem, hnd', ?_⟩
  intro g
  have hsub := fireEventAux_sublist (addHandlerForEvent l handler).length
    (addHandlerForEvent l handler) 0
  rw [List.drop_zero] at hsub
  exact List.nodup_iff_count_le_one.mp (hsub.nodup hnd') g

/-- Witness for C10 at a concrete two-handler list (the second handler a
`once` handler). -/
theorem addHandlerForEvent_idempotent_witness :
    addHandlerForEvent (addHandlerForEvent [⟨1, false⟩] ⟨2, true⟩) ⟨2, true⟩
        = addHandlerForEvent [⟨1, false⟩] ⟨2, true⟩
    ∧ (fireEventInvocations
        (addHandlerForEvent [⟨1, false⟩] ⟨2, true⟩)).count ⟨2, true⟩ ≤ 1 :=
  ⟨(addHandlerForEvent_idempotent [⟨1, false⟩] ⟨2, true⟩ (by decide)).1,
   (addHandlerForEvent_idempotent [⟨1, false⟩] ⟨2, true⟩ (by decide)).2.2
     ⟨2, true⟩⟩
